import Mathlib

/-!
# Verification of the product-importer CSV pipeline

A shallow embedding, in Lean 4, of the core of the `product-importer`
repository: the row validator, the row-counting pass, the import
orchestrator loop (`app/tasks/import_csv.py`), the bulk upsert engine,
the webhook dispatcher (`app/tasks/webhook_sender.py`), and the
product-store write paths (`app/api/products.py`).

Modelling conventions:
* Python `str` is Lean `String`; `str.strip()` is `String.trim`,
  `str.upper()` is `String.toUpper` (the inputs of interest are ASCII).
* `decimal.Decimal` values are rationals (`Rat`); the `Decimal(str)`
  constructor is modelled for the sign/digits/point fragment (exponents,
  `NaN` and infinities are not modelled — no claim touches them).
* A CSV file is its list of physical lines (no trailing newline in each).
  `csv.DictReader` is modelled for single-line records: the first line is
  the header, completely empty lines are skipped (as `csv` does), fields
  are split on commas (quoting is not modelled), and keys are paired with
  values by position.
* Database rows are records; the product table is a list of such records.
* Celery's `task.retry` bookkeeping (`max_retries`) is modelled after its
  documented semantics: the `retries` counter starts at 0 and a retry is
  granted while `retries < max_retries`, otherwise the task is terminally
  exhausted.
-/

namespace ProductImporter

/-! ## Python string helpers -/

/-- Python `str.strip()`: drop leading and trailing whitespace (written
over the character list so the kernel can evaluate it). -/
def pyStrip (s : String) : String :=
  ⟨((s.data.dropWhile Char.isWhitespace).reverse.dropWhile Char.isWhitespace).reverse⟩

/-- Python `str.upper()` (character-wise, as `String.toUpper` does). -/
def pyUpper (s : String) : String := ⟨s.data.map Char.toUpper⟩

/-- A CSV row as handed to `parse_csv_row`: a finite map from column name
to raw field value, modelling the `dict` produced by `csv.DictReader`. -/
def Row : Type := List (String × String)

instance : DecidableEq Row := by unfold Row; infer_instance

/-- Python `row.get(key, "")`. -/
def Row.getD (r : Row) (key : String) : String :=
  match List.lookup key r with
  | some v => v
  | none => ""

/-! ## Numeric parsing

`parseDigits` reads a non-empty all-digit string; `parseDecimal` models
`decimal.Decimal(s)` on the `[sign] digits [. digits]` fragment and
`parsePyInt` models `int(s)` on `[sign] digits`. -/

/-- The value of a base-10 digit list. -/
def digitsVal (cs : List Char) : Nat :=
  cs.foldl (fun acc c => 10 * acc + (c.toNat - 48)) 0

/-- Interpret a list of characters as a base-10 numeral; `none` unless the
list is non-empty and all digits. -/
def parseDigits : List Char → Option Nat
  | [] => none
  | cs => if cs.all Char.isDigit then some (digitsVal cs) else none

/-- Split a character list at the first `.`, returning the parts before and
after; `none` if no `.` occurs. -/
def splitAtDot : List Char → Option (List Char × List Char)
  | [] => none
  | c :: cs =>
    if c = '.' then some ([], cs)
    else match splitAtDot cs with
      | some (l, r) => some (c :: l, r)
      | none => none

/-- Strip one optional leading sign, returning `(negative?, rest)`. -/
def stripSign : List Char → Bool × List Char
  | '-' :: cs => (true, cs)
  | '+' :: cs => (false, cs)
  | cs => (false, cs)

/-- Model of `decimal.Decimal(s)` for strings of shape
`[+|-] digits`, `[+|-] digits . digits`, `[+|-] digits .` or `[+|-] . digits`
(at least one digit in total). -/
def parseDecimal (s : String) : Option Rat :=
  let (neg, cs) := stripSign s.data
  let value? : Option Rat :=
    match splitAtDot cs with
    | none =>
      match parseDigits cs with
      | some n => some (mkRat n 1)
      | none => none
    | some (intPart, fracPart) =>
      if intPart = [] ∧ fracPart = [] then none
      else if (intPart.all Char.isDigit ∧ fracPart.all Char.isDigit) then
        some (mkRat (digitsVal intPart * 10 ^ fracPart.length + digitsVal fracPart)
          (10 ^ fracPart.length))
      else none
  match value? with
  | some v => some (if neg then -v else v)
  | none => none

/-- Model of Python `int(s)` for strings of shape `[+|-] digits`. -/
def parsePyInt (s : String) : Option Int :=
  let (neg, cs) := stripSign s.data
  match parseDigits cs with
  | some n => some (if neg then -(n : Int) else (n : Int))
  | none => none

/-! ## The row validator (`parse_csv_row`) -/

/-- The typed record built for a valid row (the `"data"` dict). -/
structure ProductData where
  sku : String
  name : String
  description : Option String
  price : Option Rat
  quantity : Int
  is_active : Bool
deriving DecidableEq, Repr

/-- The outcome of validating one row: the spec's `ParsedRow`, tagged
`Valid` or `Invalid` (the code's `{"valid": True/False, ...}` dicts). -/
inductive ParsedRow where
  | valid (data : ProductData)
  | invalid (row : Nat) (errors : List String)
deriving DecidableEq, Repr

/-- `sku = row.get("sku", "").strip()`. -/
def skuField (row : Row) : String := pyStrip (row.getD "sku")

/-- `name = row.get("name", "").strip()`. -/
def nameField (row : Row) : String := pyStrip (row.getD "name")

/-- `description = row.get("description", "").strip() or None`. -/
def descriptionField (row : Row) : Option String :=
  let d := pyStrip (row.getD "description")
  if d = "" then none else some d

/-- The price block of `parse_csv_row`: the resulting `price` value and the
errors it contributes ("-5" branch, "abc" branch, absent branch). -/
def priceField (row : Row) : Option Rat × List String :=
  let price_str := pyStrip (row.getD "price")
  if price_str = "" then (none, [])
  else match parseDecimal price_str with
    | some p => (some p, if p < 0 then ["Price cannot be negative"] else [])
    | none => (none, ["Invalid price format: " ++ price_str])

/-- The quantity block of `parse_csv_row`: resulting value (default 0) and
contributed errors. -/
def quantityField (row : Row) : Int × List String :=
  let quantity_str := pyStrip (row.getD "quantity")
  if quantity_str = "" then (0, [])
  else match parsePyInt quantity_str with
    | some q => (q, if q < 0 then ["Quantity cannot be negative"] else [])
    | none => (0, ["Invalid quantity format: " ++ quantity_str])

/-- The `errors` list accumulated by `parse_csv_row`, in append order:
sku, name, price, quantity. Each field contributes independently. -/
def rowErrors (row : Row) : List String :=
  (if skuField row = "" then ["SKU is required"] else []) ++
  (if nameField row = "" then ["Name is required"] else []) ++
  (priceField row).2 ++ (quantityField row).2

/-- `parse_csv_row(row, row_num)` from `app/tasks/import_csv.py`: collect
field errors independently; return the typed record when no error occurred. -/
def parse_csv_row (row : Row) (row_num : Nat) : ParsedRow :=
  if rowErrors row ≠ [] then
    ParsedRow.invalid row_num (rowErrors row)
  else
    ParsedRow.valid {
      sku := pyUpper (skuField row)
      name := nameField row
      description := descriptionField row
      price := (priceField row).1
      quantity := (quantityField row).1
      is_active := true
    }

example : parse_csv_row [("sku", "ab-1"), ("name", "Widget")] 2 =
    ParsedRow.valid
      { sku := "AB-1", name := "Widget", description := none,
        price := none, quantity := 0, is_active := true } := by decide

example : parse_csv_row [("sku", "a"), ("name", "n"), ("price", "-5")] 2 =
    ParsedRow.invalid 2 ["Price cannot be negative"] := by decide

example : parse_csv_row [("sku", "a"), ("name", "n"), ("price", "abc")] 2 =
    ParsedRow.invalid 2 ["Invalid price format: abc"] := by decide

example : parse_csv_row [("sku", ""), ("name", ""), ("price", "-1"), ("quantity", "-2")] 3 =
    ParsedRow.invalid 3
      ["SKU is required", "Name is required",
       "Price cannot be negative", "Quantity cannot be negative"] := by decide

example : parse_csv_row [("sku", "a"), ("name", "n"), ("price", "12.50"), ("quantity", "7")] 2 =
    ParsedRow.valid
      { sku := "A", name := "n", description := none,
        price := some (mkRat 25 2), quantity := 7, is_active := true } := by decide

theorem parseDecimal_empty : parseDecimal "" = none := rfl

/-- If the row's error list is empty, `parse_csv_row` returns the typed
record built from the field blocks. -/
theorem parse_csv_row_of_no_errors (row : Row) (n : Nat) (h : rowErrors row = []) :
    parse_csv_row row n = ParsedRow.valid {
      sku := pyUpper (skuField row), name := nameField row,
      description := descriptionField row, price := (priceField row).1,
      quantity := (quantityField row).1, is_active := true } := by
  unfold parse_csv_row
  simp [h]

/-- If the row's error list is non-empty, `parse_csv_row` returns
`Invalid` carrying the row number and that list. -/
theorem parse_csv_row_of_errors (row : Row) (n : Nat) (h : rowErrors row ≠ []) :
    parse_csv_row row n = ParsedRow.invalid n (rowErrors row) := by
  unfold parse_csv_row
  simp [h]

/-- An error produced by any single field block is in the collected list. -/
theorem rowErrors_mem_of_price (row : Row) {e : String} (h : e ∈ (priceField row).2) :
    e ∈ rowErrors row := by
  unfold rowErrors
  simp only [List.mem_append]
  exact Or.inl (Or.inr h)

/-- **C2**: the Row Validator returns exactly one of `Valid` or `Invalid`
(exhaustive, mutually exclusive, with a non-empty error list and the given
row number on `Invalid`); every field rule contributes its error
independently of the other fields (an empty SKU or name is always
reported); a parsable negative price yields the negative-price error, an
unparseable non-empty price yields a format error naming the offending raw
value; and a `Valid` outcome carries the uppercased SKU, an absent price
when the raw price was empty, and quantity 0 when the raw quantity was
empty. -/
theorem validator_dichotomy_and_field_rules (row : Row) (n : Nat) :
    ((∃ d, parse_csv_row row n = ParsedRow.valid d) ∨
      (∃ e, parse_csv_row row n = ParsedRow.invalid n e ∧ e ≠ [])) ∧
    (∀ d k e, parse_csv_row row n = ParsedRow.valid d →
      parse_csv_row row n ≠ ParsedRow.invalid k e) ∧
    (skuField row = "" →
      ∃ e, parse_csv_row row n = ParsedRow.invalid n e ∧ "SKU is required" ∈ e) ∧
    (nameField row = "" →
      ∃ e, parse_csv_row row n = ParsedRow.invalid n e ∧ "Name is required" ∈ e) ∧
    (∀ p, parseDecimal (pyStrip (row.getD "price")) = some p → p < 0 →
      ∃ e, parse_csv_row row n = ParsedRow.invalid n e ∧
        "Price cannot be negative" ∈ e) ∧
    (pyStrip (row.getD "price") ≠ "" →
      parseDecimal (pyStrip (row.getD "price")) = none →
      ∃ e, parse_csv_row row n = ParsedRow.invalid n e ∧
        ("Invalid price format: " ++ pyStrip (row.getD "price")) ∈ e) ∧
    (∀ d, parse_csv_row row n = ParsedRow.valid d →
      d.sku = pyUpper (skuField row) ∧
      (pyStrip (row.getD "price") = "" → d.price = none) ∧
      (pyStrip (row.getD "quantity") = "" → d.quantity = 0)) := by
  refine ⟨?_, ?_, ?_, ?_, ?_, ?_, ?_⟩
  · by_cases h : rowErrors row = []
    · exact Or.inl ⟨_, parse_csv_row_of_no_errors row n h⟩
    · exact Or.inr ⟨rowErrors row, parse_csv_row_of_errors row n h, h⟩
  · intro d k e hv hi
    rw [hv] at hi
    exact ParsedRow.noConfusion hi
  · intro hsku
    have hm : "SKU is required" ∈ rowErrors row := by
      unfold rowErrors
      simp [hsku]
    exact ⟨rowErrors row, parse_csv_row_of_errors row n (List.ne_nil_of_mem hm), hm⟩
  · intro hname
    have hm : "Name is required" ∈ rowErrors row := by
      unfold rowErrors
      simp [hname]
    exact ⟨rowErrors row, parse_csv_row_of_errors row n (List.ne_nil_of_mem hm), hm⟩
  · intro p hp hneg
    have hps : pyStrip (row.getD "price") ≠ "" := by
      intro h0
      rw [h0, parseDecimal_empty] at hp
      exact Option.noConfusion hp
    have hm : "Price cannot be negative" ∈ (priceField row).2 := by
      unfold priceField
      simp [hps, hp, hneg]
    have hm' := rowErrors_mem_of_price row hm
    exact ⟨rowErrors row, parse_csv_row_of_errors row n (List.ne_nil_of_mem hm'), hm'⟩
  · intro hps hnone
    have hm : ("Invalid price format: " ++ pyStrip (row.getD "price")) ∈ (priceField row).2 := by
      unfold priceField
      simp [hps, hnone]
    have hm' := rowErrors_mem_of_price row hm
    exact ⟨rowErrors row, parse_csv_row_of_errors row n (List.ne_nil_of_mem hm'), hm'⟩
  · intro d hd
    by_cases h : rowErrors row = []
    · rw [parse_csv_row_of_no_errors row n h] at hd
      obtain rfl : _ = d := ParsedRow.valid.inj hd
      refine ⟨rfl, ?_, ?_⟩
      · intro hps
        show (priceField row).1 = none
        unfold priceField
        simp [hps]
      · intro hqs
        show (quantityField row).1 = 0
        unfold quantityField
        simp [hqs]
    · rw [parse_csv_row_of_errors row n h] at hd
      exact ParsedRow.noConfusion hd

/-- Witness for C2: the theorem applied at concrete rows — price `"-5"`,
price `"abc"`, an empty SKU together with a bad price (both errors
reported), and a fully valid row with absent price and quantity. -/
theorem validator_dichotomy_and_field_rules_witness :
    (∃ e, parse_csv_row [("sku", "a"), ("name", "n"), ("price", "-5")] 2 =
        ParsedRow.invalid 2 e ∧ "Price cannot be negative" ∈ e) ∧
    (∃ e, parse_csv_row [("sku", "a"), ("name", "n"), ("price", "abc")] 2 =
        ParsedRow.invalid 2 e ∧ "Invalid price format: abc" ∈ e) ∧
    (∃ e, parse_csv_row [("sku", ""), ("name", "n"), ("price", "abc")] 3 =
        ParsedRow.invalid 3 e ∧ "SKU is required" ∈ e) ∧
    (∃ e, parse_csv_row [("sku", "a"), ("name", "")] 4 =
        ParsedRow.invalid 4 e ∧ "Name is required" ∈ e) ∧
    (∃ d, parse_csv_row [("sku", "ab"), ("name", "n")] 2 = ParsedRow.valid d ∧
      d.sku = "AB" ∧ d.price = none ∧ d.quantity = 0) := by
  refine ⟨?_, ?_, ?_, ?_, ?_⟩
  · exact (validator_dichotomy_and_field_rules
      [("sku", "a"), ("name", "n"), ("price", "-5")] 2).2.2.2.2.1
      (-(mkRat 5 1)) (by decide) (by decide)
  · exact (validator_dichotomy_and_field_rules
      [("sku", "a"), ("name", "n"), ("price", "abc")] 2).2.2.2.2.2.1
      (by decide) (by decide)
  · exact (validator_dichotomy_and_field_rules
      [("sku", ""), ("name", "n"), ("price", "abc")] 3).2.2.1 (by decide)
  · exact (validator_dichotomy_and_field_rules
      [("sku", "a"), ("name", "")] 4).2.2.2.1 (by decide)
  · have hd : parse_csv_row [("sku", "ab"), ("name", "n")] 2 =
        ParsedRow.valid ⟨"AB", "n", none, none, 0, true⟩ := by decide
    have h := (validator_dichotomy_and_field_rules
      [("sku", "ab"), ("name", "n")] 2).2.2.2.2.2.2 _ hd
    exact ⟨_, hd, h.1.trans (by decide), h.2.1 (by decide), h.2.2 (by decide)⟩

/-! ## The product store and the upsert engine

The `products` table (`app/models/product.py`) is a list of rows; the
`sku` column carries a unique index. `upsert_products` is the engine from
`app/tasks/import_csv.py`. -/

/-- A row of the `products` table (the columns the pipeline reads or
writes; `id` and timestamps are irrelevant to the claims). -/
structure StoredProduct where
  sku : String
  name : String
  description : Option String
  price : Option Rat
  quantity : Int
  is_active : Bool
deriving DecidableEq, Repr

/-- The `products` table. -/
abbrev Store := List StoredProduct

/-- Does a row with exactly this sku exist? (The unique index on `sku`.) -/
def skuExists (store : Store) (sku : String) : Bool :=
  store.any (fun q => q.sku == sku)

/-- One row of `INSERT ... ON CONFLICT ("sku") DO UPDATE`: insert when no
row carries this exact sku, otherwise update name, description, price and
quantity (the `set_` clause; `is_active` is not in it and keeps its stored
value). -/
def upsertOne (store : Store) (d : ProductData) : Store :=
  if skuExists store d.sku then
    store.map (fun p =>
      if p.sku = d.sku then
        { p with name := d.name, description := d.description,
                 price := d.price, quantity := d.quantity }
      else p)
  else
    store ++ [⟨d.sku, d.name, d.description, d.price, d.quantity, d.is_active⟩]

/-- The multi-row `INSERT ... ON CONFLICT` statement, applied row by row
in batch order. (PostgreSQL rejects a statement whose batch repeats a
key, so batches are used with pairwise-distinct skus.) -/
def applyBatch (store : Store) (products : List ProductData) : Store :=
  products.foldl upsertOne store

/-- `upsert_products(db, products)` from `app/tasks/import_csv.py`: for an
empty batch return `(0, 0)` untouched; otherwise collect the stored skus
whose uppercasing occurs among the batch skus (`existing_skus`), count
each batch row as updated if its sku is in that collection and as created
otherwise, and execute the bulk upsert. Returns the new store and
`(created_count, updated_count)`. -/
def upsert_products (store : Store) (products : List ProductData) :
    Store × Nat × Nat :=
  if products = [] then (store, 0, 0)
  else
    let skus := products.map (·.sku)
    let existing_skus := (store.filter (fun p => skus.contains (pyUpper p.sku))).map (·.sku)
    let created_count := (products.filter (fun p => ¬ existing_skus.contains p.sku)).length
    let updated_count := (products.filter (fun p => existing_skus.contains p.sku)).length
    (applyBatch store products, created_count, updated_count)

/-! ### Upsert lemmas -/

/-- The skus of the store after one upsert: unchanged when the key was
present, extended by the new key otherwise. -/
theorem upsertOne_map_sku (store : Store) (d : ProductData) :
    (upsertOne store d).map (·.sku) =
      if skuExists store d.sku then store.map (·.sku)
      else store.map (·.sku) ++ [d.sku] := by
  unfold upsertOne
  by_cases h : skuExists store d.sku
  · simp only [h, if_true, List.map_map]
    refine List.map_congr_left ?_
    intro p _
    by_cases hp : p.sku = d.sku <;> simp [hp]
  · simp [h]

/-- One upsert preserves uniqueness of the sku column. -/
theorem upsertOne_nodup (store : Store) (d : ProductData)
    (h : (store.map (·.sku)).Nodup) : ((upsertOne store d).map (·.sku)).Nodup := by
  rw [upsertOne_map_sku]
  by_cases hex : skuExists store d.sku
  · simpa [hex] using h
  · have hnot : d.sku ∉ store.map (·.sku) := by
      intro hmem
      apply hex
      unfold skuExists
      rw [List.any_eq_true]
      obtain ⟨p, hp, hps⟩ := List.mem_map.mp hmem
      exact ⟨p, hp, by simp [hps]⟩
    simp [hex, List.nodup_append, h, hnot]

/-- One upsert preserves "every stored sku is uppercase" provided the
incoming sku is uppercase. -/
theorem upsertOne_upper (store : Store) (d : ProductData)
    (hst : ∀ p ∈ store, pyUpper p.sku = p.sku) (hd : pyUpper d.sku = d.sku) :
    ∀ p ∈ upsertOne store d, pyUpper p.sku = p.sku := by
  intro p hp
  have : p.sku ∈ (upsertOne store d).map (·.sku) := List.mem_map_of_mem _ hp
  rw [upsertOne_map_sku] at this
  by_cases hex : skuExists store d.sku
  · rw [if_pos hex] at this
    obtain ⟨q, hq, hqs⟩ := List.mem_map.mp this
    rw [← hqs]
    exact hst q hq
  · rw [if_neg hex] at this
    rcases List.mem_append.mp this with hmem | hmem
    · obtain ⟨q, hq, hqs⟩ := List.mem_map.mp hmem
      rw [← hqs]
      exact hst q hq
    · rw [List.mem_singleton.mp hmem]
      exact hd

/-- The `ON CONFLICT` update rewrites fields but never skus, so it
commutes with filtering on a sku. -/
theorem filter_sku_map_upd (st : Store) (d : ProductData) (S : String) :
    (st.map (fun p =>
      if p.sku = d.sku then
        { p with name := d.name, description := d.description,
                 price := d.price, quantity := d.quantity }
      else p)).filter (fun p => p.sku = S) =
    (st.filter (fun p => p.sku = S)).map (fun p =>
      if p.sku = d.sku then
        { p with name := d.name, description := d.description,
                 price := d.price, quantity := d.quantity }
      else p) := by
  rw [List.filter_map]
  congr 1
  apply List.filter_congr
  intro p _
  by_cases hp : p.sku = d.sku <;> simp [hp]

/-- Upserting a row with a different sku does not change the rows filed
under `S`. -/
theorem upsertOne_filter_other (store : Store) (d : ProductData) (S : String)
    (hne : d.sku ≠ S) :
    (upsertOne store d).filter (fun p => p.sku = S) =
      store.filter (fun p => p.sku = S) := by
  unfold upsertOne
  by_cases h : skuExists store d.sku
  · rw [if_pos h, filter_sku_map_upd]
    have : ∀ p ∈ store.filter (fun p => p.sku = S),
        (if p.sku = d.sku then
          { p with name := d.name, description := d.description,
                   price := d.price, quantity := d.quantity }
        else p) = p := by
      intro p hp
      have hps : p.sku = S := by simpa using (List.mem_filter.mp hp).2
      rw [if_neg (fun hc : p.sku = d.sku => hne (hc ▸ hps))]
    rw [List.map_congr_left this, List.map_id']
  · rw [if_neg h, List.filter_append]
    simp [hne]

/-- Upserting a row keyed `S` makes every stored row filed under `S`
carry the incoming name, description, price and quantity. -/
theorem upsertOne_filter_self_fields (store : Store) (d : ProductData) :
    ∀ p ∈ (upsertOne store d).filter (fun p => p.sku = d.sku),
      p.name = d.name ∧ p.description = d.description ∧
      p.price = d.price ∧ p.quantity = d.quantity := by
  intro p hp
  rw [List.mem_filter] at hp
  obtain ⟨hp, hps⟩ := hp
  have hps : p.sku = d.sku := by simpa using hps
  unfold upsertOne at hp
  by_cases h : skuExists store d.sku
  · rw [if_pos h] at hp
    obtain ⟨q, _, hq⟩ := List.mem_map.mp hp
    by_cases hqd : q.sku = d.sku
    · rw [if_pos hqd] at hq
      rw [← hq]
      exact ⟨rfl, rfl, rfl, rfl⟩
    · rw [if_neg hqd] at hq
      exact absurd (hq ▸ hps) hqd
  · rw [if_neg h] at hp
    rcases List.mem_append.mp hp with hmem | hmem
    · exfalso
      apply h
      unfold skuExists
      rw [List.any_eq_true]
      exact ⟨p, hmem, by simp [hps]⟩
    · rw [List.mem_singleton.mp hmem]
      exact ⟨rfl, rfl, rfl, rfl⟩

/-- Upserting a row keyed `S` leaves `max 1 (previous count)` rows filed
under `S`. -/
theorem upsertOne_filter_self_length (store : Store) (d : ProductData) :
    ((upsertOne store d).filter (fun p => p.sku = d.sku)).length =
      max 1 ((store.filter (fun p => p.sku = d.sku)).length) := by
  unfold upsertOne
  by_cases h : skuExists store d.sku
  · rw [if_pos h]
    have hne : (store.filter (fun p => p.sku = d.sku)) ≠ [] := by
      unfold skuExists at h
      rw [List.any_eq_true] at h
      obtain ⟨q, hq, hqs⟩ := h
      exact List.ne_nil_of_mem (List.mem_filter.mpr ⟨hq, by simpa using hqs⟩)
    have hlen : 1 ≤ (store.filter (fun p => p.sku = d.sku)).length :=
      Nat.one_le_iff_ne_zero.mpr (fun hz => hne (List.eq_nil_of_length_eq_zero hz))
    rw [Nat.max_eq_right hlen, filter_sku_map_upd, List.length_map]
  · rw [if_neg h, List.filter_append]
    have hnil : store.filter (fun p => p.sku = d.sku) = [] := by
      rw [List.filter_eq_nil_iff]
      intro q hq
      simp only [decide_eq_true_eq]
      intro hqs
      apply h
      unfold skuExists
      rw [List.any_eq_true]
      exact ⟨q, hq, by simp [hqs]⟩
    simp [hnil]

/-- A batch whose skus avoid `S` does not change the rows filed under `S`. -/
theorem applyBatch_filter_not_mem (store : Store) (b : List ProductData) (S : String)
    (h : S ∉ b.map (·.sku)) :
    (applyBatch store b).filter (fun p => p.sku = S) =
      store.filter (fun p => p.sku = S) := by
  induction b generalizing store with
  | nil => rfl
  | cons d r ih =>
    have hd : d.sku ≠ S := fun hc => h (by simp [hc])
    have hr : S ∉ r.map (·.sku) := fun hc => h (by simp [hc])
    calc (applyBatch (upsertOne store d) r).filter (fun p => p.sku = S)
        = (upsertOne store d).filter (fun p => p.sku = S) := ih _ hr
      _ = store.filter (fun p => p.sku = S) := upsertOne_filter_other store d S hd

/-- Batch upserts preserve uniqueness of the sku column. -/
theorem applyBatch_nodup (store : Store) (b : List ProductData)
    (h : (store.map (·.sku)).Nodup) : ((applyBatch store b).map (·.sku)).Nodup := by
  induction b generalizing store with
  | nil => exact h
  | cons d r ih => exact ih _ (upsertOne_nodup store d h)

/-- Batch upserts preserve "every stored sku is uppercase" when the batch
skus are uppercase. -/
theorem applyBatch_upper (store : Store) (b : List ProductData)
    (hst : ∀ p ∈ store, pyUpper p.sku = p.sku)
    (hb : ∀ p ∈ b, pyUpper p.sku = p.sku) :
    ∀ p ∈ applyBatch store b, pyUpper p.sku = p.sku := by
  induction b generalizing store with
  | nil => exact hst
  | cons d r ih =>
    exact ih _ (upsertOne_upper store d hst (hb d (by simp)))
      (fun p hp => hb p (by simp [hp]))

/-- With a unique sku column, at most one row is filed under any sku. -/
theorem length_filter_sku_le_one (store : Store)
    (h : (store.map (·.sku)).Nodup) (S : String) :
    (store.filter (fun p => p.sku = S)).length ≤ 1 := by
  induction store with
  | nil => simp
  | cons q st ih =>
    rw [List.map_cons, List.nodup_cons] at h
    by_cases hq : q.sku = S
    · have hnil : st.filter (fun p => p.sku = S) = [] := by
        rw [List.filter_eq_nil_iff]
        intro p hp
        simp only [decide_eq_true_eq]
        intro hps
        exact h.1 (List.mem_map.mpr ⟨p, hp, hps.trans hq.symm⟩)
      simp [hq, hnil]
    · simpa [hq] using ih h.2

/-- After folding a batch containing a record keyed `S` (each sku at most
once in the batch), exactly one row is filed under `S` and it carries that
record's name, description, price and quantity. -/
theorem applyBatch_filter_last (store : Store) (b : List ProductData)
    (d : ProductData)
    (hnodup_store : (store.map (·.sku)).Nodup)
    (hnodup_b : (b.map (·.sku)).Nodup) (hd : d ∈ b) :
    ((applyBatch store b).filter (fun p => p.sku = d.sku)).length = 1 ∧
    ∀ p ∈ (applyBatch store b).filter (fun p => p.sku = d.sku),
      p.name = d.name ∧ p.description = d.description ∧
      p.price = d.price ∧ p.quantity = d.quantity := by
  obtain ⟨l, r, rfl⟩ := List.append_of_mem hd
  have hfold : applyBatch store (l ++ d :: r) =
      applyBatch (upsertOne (applyBatch store l) d) r := by
    unfold applyBatch
    rw [List.foldl_append, List.foldl_cons]
  have hnotr : d.sku ∉ r.map (·.sku) := by
    rw [List.map_append, List.map_cons] at hnodup_b
    have := (List.nodup_append.mp hnodup_b).2.1
    rw [List.nodup_cons] at this
    exact this.1
  have hfilter : (applyBatch store (l ++ d :: r)).filter (fun p => p.sku = d.sku) =
      (upsertOne (applyBatch store l) d).filter (fun p => p.sku = d.sku) := by
    rw [hfold]
    exact applyBatch_filter_not_mem _ r d.sku hnotr
  constructor
  · rw [hfilter, upsertOne_filter_self_length]
    have hle := length_filter_sku_le_one (applyBatch store l)
      (applyBatch_nodup store l hnodup_store) d.sku
    omega
  · intro p hp
    rw [hfilter] at hp
    exact upsertOne_filter_self_fields (applyBatch store l) d p hp

theorem contains_eq_true_iff_mem (l : List String) (a : String) :
    l.contains a = true ↔ a ∈ l := List.elem_iff

/-- On a store whose skus are uppercase, membership of a batch row's sku
in the code's `existing_skus` collection agrees with existence of a row
with that exact sku. -/
theorem existing_skus_contains (store : Store) (b : List ProductData)
    (hupper : ∀ p ∈ store, pyUpper p.sku = p.sku)
    (p : ProductData) (hp : p ∈ b) :
    ((store.filter (fun q => (b.map (·.sku)).contains (pyUpper q.sku))).map
      (·.sku)).contains p.sku = skuExists store p.sku := by
  rw [Bool.eq_iff_iff]
  constructor
  · intro h
    rw [contains_eq_true_iff_mem, List.mem_map] at h
    obtain ⟨q, hq, hqs⟩ := h
    rw [List.mem_filter] at hq
    unfold skuExists
    rw [List.any_eq_true]
    exact ⟨q, hq.1, by simp [hqs]⟩
  · intro h
    unfold skuExists at h
    rw [List.any_eq_true] at h
    obtain ⟨q, hq, hqs⟩ := h
    have hqs : q.sku = p.sku := by simpa using hqs
    rw [contains_eq_true_iff_mem, List.mem_map]
    refine ⟨q, List.mem_filter.mpr ⟨hq, ?_⟩, hqs⟩
    rw [contains_eq_true_iff_mem, hupper q hq, hqs]
    exact List.mem_map.mpr ⟨p, hp, rfl⟩

/-- The counts returned by `upsert_products` on an uppercase store: a
batch row counts as created exactly when no row with its sku was stored,
as updated exactly when one was; the store advances by the batch fold. -/
theorem upsert_products_spec (store : Store) (b : List ProductData)
    (hne : b ≠ []) (hupper : ∀ p ∈ store, pyUpper p.sku = p.sku) :
    upsert_products store b =
      (applyBatch store b,
       (b.filter (fun p => ! skuExists store p.sku)).length,
       (b.filter (fun p => skuExists store p.sku)).length) := by
  unfold upsert_products
  rw [if_neg hne]
  refine Prod.ext rfl (Prod.ext ?_ ?_) <;> simp only
  · congr 1
    apply List.filter_congr
    intro p hp
    rw [existing_skus_contains store b hupper p hp]
    by_cases h : skuExists store p.sku = true <;> simp [h]
  · congr 1
    apply List.filter_congr
    intro p hp
    exact existing_skus_contains store b hupper p hp

/-- **C3**: applying the Upsert Engine to two batches of the same job that
both contain SKU `S` (skus unique within each batch, store skus unique
and uppercase, first batch skus uppercase, as the validator guarantees)
leaves exactly one product row for `S`, carrying the later batch record's
name, description, price and quantity; and each call returns
`(created_count, updated_count)` counting the batch records whose SKU was
respectively absent from and present in the store it was applied to. -/
theorem upsert_idempotent_per_sku_last_batch_wins
    (store : Store) (b1 b2 : List ProductData) (d1 d2 : ProductData) (S : String)
    (hupper_store : ∀ p ∈ store, pyUpper p.sku = p.sku)
    (hnodup_store : (store.map (·.sku)).Nodup)
    (hupper_b1 : ∀ p ∈ b1, pyUpper p.sku = p.sku)
    (hnodup_b1 : (b1.map (·.sku)).Nodup)
    (hnodup_b2 : (b2.map (·.sku)).Nodup)
    (hd1 : d1 ∈ b1) (hd1S : d1.sku = S) (hd2 : d2 ∈ b2) (hd2S : d2.sku = S) :
    (((upsert_products (upsert_products store b1).1 b2).1.filter
        (fun p => p.sku = S)).length = 1 ∧
      ∀ p ∈ (upsert_products (upsert_products store b1).1 b2).1.filter
          (fun p => p.sku = S),
        p.name = d2.name ∧ p.description = d2.description ∧
        p.price = d2.price ∧ p.quantity = d2.quantity) ∧
    ((upsert_products store b1).2.1 =
        (b1.filter (fun p => ! skuExists store p.sku)).length ∧
      (upsert_products store b1).2.2 =
        (b1.filter (fun p => skuExists store p.sku)).length) ∧
    ((upsert_products (upsert_products store b1).1 b2).2.1 =
        (b2.filter (fun p => ! skuExists (upsert_products store b1).1 p.sku)).length ∧
      (upsert_products (upsert_products store b1).1 b2).2.2 =
        (b2.filter (fun p => skuExists (upsert_products store b1).1 p.sku)).length) := by
  have hb1ne : b1 ≠ [] := List.ne_nil_of_mem hd1
  have hb2ne : b2 ≠ [] := List.ne_nil_of_mem hd2
  have h1 := upsert_products_spec store b1 hb1ne hupper_store
  have hupper1 : ∀ p ∈ (upsert_products store b1).1, pyUpper p.sku = p.sku := by
    rw [h1]
    exact applyBatch_upper store b1 hupper_store hupper_b1
  have hnodup1 : ((upsert_products store b1).1.map (·.sku)).Nodup := by
    rw [h1]
    exact applyBatch_nodup store b1 hnodup_store
  have h2 := upsert_products_spec (upsert_products store b1).1 b2 hb2ne hupper1
  have hlast := applyBatch_filter_last (upsert_products store b1).1 b2 d2
    hnodup1 hnodup_b2 hd2
  rw [hd2S] at hlast
  refine ⟨⟨?_, ?_⟩, ⟨?_, ?_⟩, ⟨?_, ?_⟩⟩
  · rw [h2]
    exact hlast.1
  · rw [h2]
    exact hlast.2
  · rw [h1]
  · rw [h1]
  · rw [h2]
  · rw [h2]

/-- Witness for C3: empty store, batch 1 creates SKU `A`, batch 2 updates
it; the final store holds exactly one `A` row and the counts are
`(1, 0)` then `(0, 1)`. -/
theorem upsert_idempotent_per_sku_last_batch_wins_witness :
    (((upsert_products (upsert_products ([] : Store)
        [⟨"A", "x", none, none, 1, true⟩]).1
        [⟨"A", "y", some "d", some (mkRat 3 1), 2, true⟩]).1.filter
        (fun p => p.sku = "A")).length = 1) ∧
    (upsert_products ([] : Store) [⟨"A", "x", none, none, 1, true⟩]).2.1 = 1 ∧
    (upsert_products ([] : Store) [⟨"A", "x", none, none, 1, true⟩]).2.2 = 0 ∧
    (upsert_products (upsert_products ([] : Store)
        [⟨"A", "x", none, none, 1, true⟩]).1
        [⟨"A", "y", some "d", some (mkRat 3 1), 2, true⟩]).2.1 = 0 ∧
    (upsert_products (upsert_products ([] : Store)
        [⟨"A", "x", none, none, 1, true⟩]).1
        [⟨"A", "y", some "d", some (mkRat 3 1), 2, true⟩]).2.2 = 1 := by
  have h := upsert_idempotent_per_sku_last_batch_wins ([] : Store)
    [⟨"A", "x", none, none, 1, true⟩]
    [⟨"A", "y", some "d", some (mkRat 3 1), 2, true⟩]
    ⟨"A", "x", none, none, 1, true⟩
    ⟨"A", "y", some "d", some (mkRat 3 1), 2, true⟩ "A"
    (by decide) (by decide) (by decide) (by decide) (by decide)
    (by decide) (by decide) (by decide) (by decide)
  exact ⟨h.1.1, h.2.1.1.trans (by decide), h.2.1.2.trans (by decide),
    h.2.2.1.trans (by decide), h.2.2.2.trans (by decide)⟩

/-! ## The webhook dispatcher (`app/tasks/webhook_sender.py`)

`send_webhook` is a Celery task with `max_retries=3`. Celery's retry
bookkeeping is an external collaborator, modelled from its documented
semantics: the task runs with an attempt counter `request.retries`
starting at 0; `self.retry(...)` schedules a re-run (incrementing the
counter) while `retries + 1 ≤ max_retries` and otherwise re-raises
terminally (retry exhausted). -/

/-- A row of the `webhooks` table (the columns the dispatcher touches). -/
structure Webhook where
  id : Nat
  name : String
  url : String
  event_type : String
  is_enabled : Bool
  secret : Option String
  last_response_code : Option Nat
  failure_count : Nat
deriving DecidableEq, Repr

/-- The outcome of the HTTP POST: a status code, a timeout
(`httpx.TimeoutException`) or another network error
(`httpx.RequestError`). -/
inductive HttpResult where
  | response (status : Nat)
  | timeout
  | networkError
deriving DecidableEq, Repr

/-- What a `self.retry(...)` call produces. -/
inductive RetrySignal where
  | scheduled (countdown : Nat)
  | exhausted
deriving DecidableEq, Repr

/-- Celery `Task.retry`: grant the retry while another attempt is allowed
(`request.retries + 1 ≤ max_retries`), else fail terminally. -/
def celeryRetry (retries maxRetries countdown : Nat) : RetrySignal :=
  if retries < maxRetries then RetrySignal.scheduled countdown
  else RetrySignal.exhausted

/-- `max_retries=3` from the `send_webhook` task decorator. -/
def WEBHOOK_MAX_RETRIES : Nat := 3

/-- The task-level outcome of one `send_webhook` execution. -/
inductive SendOutcome where
  | notFound
  | skippedDisabled
  | delivered (success : Bool) (status : Nat)
  | retried (signal : RetrySignal)
deriving DecidableEq, Repr

/-- One execution of `send_webhook` with attempt counter `retries`,
given the webhook lookup result and the HTTP outcome. Returns the
webhook row as committed and the task outcome: missing → no-op; disabled
→ skip; status < 400 → failure count reset to 0; status ≥ 400 → failure
count incremented, and additionally a retry with countdown
`60 * (retries + 1)` requested when status ≥ 500; timeout or network
error → failure count incremented and the same retry requested. -/
def send_webhook (wh : Option Webhook) (retries : Nat) (result : HttpResult) :
    Option Webhook × SendOutcome :=
  match wh with
  | none => (none, SendOutcome.notFound)
  | some w =>
    if w.is_enabled = false then (some w, SendOutcome.skippedDisabled)
    else
      match result with
      | HttpResult.response status =>
        let w1 := { w with last_response_code := some status }
        if 400 ≤ status then
          let w2 := { w1 with failure_count := w1.failure_count + 1 }
          if 500 ≤ status then
            (some w2, SendOutcome.retried
              (celeryRetry retries WEBHOOK_MAX_RETRIES (60 * (retries + 1))))
          else
            (some w2, SendOutcome.delivered false status)
        else
          (some { w1 with failure_count := 0 }, SendOutcome.delivered true status)
      | HttpResult.timeout =>
        (some { w with failure_count := w.failure_count + 1 },
          SendOutcome.retried
            (celeryRetry retries WEBHOOK_MAX_RETRIES (60 * (retries + 1))))
      | HttpResult.networkError =>
        (some { w with failure_count := w.failure_count + 1 },
          SendOutcome.retried
            (celeryRetry retries WEBHOOK_MAX_RETRIES (60 * (retries + 1))))

/-- The queue's view of repeated attempts against a fixed sequence of HTTP
outcomes: attempt `k` runs with `retries = k`; the trace ends at the first
attempt that does not obtain a scheduled retry. `fuel` bounds recursion. -/
def attemptsAux (w : Webhook) (results : Nat → HttpResult) :
    Nat → Nat → List SendOutcome
  | _, 0 => []
  | retries, fuel + 1 =>
    let r := send_webhook (some w) retries (results retries)
    match r.2 with
    | SendOutcome.retried (RetrySignal.scheduled c) =>
      SendOutcome.retried (RetrySignal.scheduled c) ::
        attemptsAux (r.1.getD w) results (retries + 1) fuel
    | out => [out]

/-- All attempts of one logical delivery, first to last. -/
def deliveryAttempts (w : Webhook) (results : Nat → HttpResult) : List SendOutcome :=
  attemptsAux w results 0 (WEBHOOK_MAX_RETRIES + 1)

/-- **C4 counterexample**: a target answering 503 three consecutive times
does not exhaust the dispatcher's retries — the third attempt requests a
fourth with delay 180s, and exhaustion needs a fourth attempt
(`max_retries=3` caps retries, not attempts, at 3). -/
theorem webhook_three_503_not_exhausted_counterexample :
    deliveryAttempts
        ⟨1, "w", "http://target", "import.completed", true, none, none, 0⟩
        (fun _ => HttpResult.response 503) =
      [SendOutcome.retried (RetrySignal.scheduled 60),
       SendOutcome.retried (RetrySignal.scheduled 120),
       SendOutcome.retried (RetrySignal.scheduled 180),
       SendOutcome.retried RetrySignal.exhausted] ∧
    (deliveryAttempts
        ⟨1, "w", "http://target", "import.completed", true, none, none, 0⟩
        (fun _ => HttpResult.response 503)).length ≠ 3 := by
  constructor
  · rfl
  · decide

/-- **C4 (amended)**: for every enabled webhook, a response ≥ 500, a
timeout or a network error makes the dispatcher request a retry with
countdown `60 × (attempt + 1)` seconds, granted while fewer than
`max_retries = 3` retries have run and exhausted afterwards — so a target
failing persistently with 503 is retried with delays 60s, 120s, 180s and
exhausts after exactly 4 attempts (not 3); codes in `[400, 500)` complete
without requesting a retry. -/
theorem webhook_retry_backoff (w : Webhook) (retries status : Nat)
    (hen : w.is_enabled = true) :
    (500 ≤ status →
      (send_webhook (some w) retries (HttpResult.response status)).2 =
        SendOutcome.retried
          (celeryRetry retries WEBHOOK_MAX_RETRIES (60 * (retries + 1)))) ∧
    ((send_webhook (some w) retries HttpResult.timeout).2 =
      SendOutcome.retried
        (celeryRetry retries WEBHOOK_MAX_RETRIES (60 * (retries + 1)))) ∧
    ((send_webhook (some w) retries HttpResult.networkError).2 =
      SendOutcome.retried
        (celeryRetry retries WEBHOOK_MAX_RETRIES (60 * (retries + 1)))) ∧
    (400 ≤ status → status < 500 →
      (send_webhook (some w) retries (HttpResult.response status)).2 =
        SendOutcome.delivered false status) ∧
    (retries < 3 →
      celeryRetry retries WEBHOOK_MAX_RETRIES (60 * (retries + 1)) =
        RetrySignal.scheduled (60 * (retries + 1))) ∧
    (3 ≤ retries →
      celeryRetry retries WEBHOOK_MAX_RETRIES (60 * (retries + 1)) =
        RetrySignal.exhausted) ∧
    (deliveryAttempts w (fun _ => HttpResult.response 503) =
      [SendOutcome.retried (RetrySignal.scheduled 60),
       SendOutcome.retried (RetrySignal.scheduled 120),
       SendOutcome.retried (RetrySignal.scheduled 180),
       SendOutcome.retried RetrySignal.exhausted]) := by
  refine ⟨?_, ?_, ?_, ?_, ?_, ?_, ?_⟩
  · intro h5
    have h4 : 400 ≤ status := le_trans (by norm_num) h5
    simp [send_webhook, hen, h4, h5]
  · simp [send_webhook, hen]
  · simp [send_webhook, hen]
  · intro h4 h5
    simp [send_webhook, hen, h4, Nat.not_le.mpr h5]
  · intro h
    simp [celeryRetry, WEBHOOK_MAX_RETRIES, h]
  · intro h
    simp [celeryRetry, WEBHOOK_MAX_RETRIES, Nat.not_lt.mpr h]
  · simp [deliveryAttempts, attemptsAux, send_webhook, hen, celeryRetry,
      WEBHOOK_MAX_RETRIES]

/-- Witness for C4 (amended): the theorem applied to a concrete enabled
webhook at attempt 1 and statuses 503 and 404. -/
theorem webhook_retry_backoff_witness :
    (send_webhook
        (some ⟨1, "w", "http://target", "import.completed", true, none, none, 0⟩)
        1 (HttpResult.response 503)).2 =
      SendOutcome.retried (RetrySignal.scheduled 120) ∧
    (send_webhook
        (some ⟨1, "w", "http://target", "import.completed", true, none, none, 0⟩)
        1 (HttpResult.response 404)).2 =
      SendOutcome.delivered false 404 ∧
    (send_webhook
        (some ⟨1, "w", "http://target", "import.completed", true, none, none, 0⟩)
        3 HttpResult.timeout).2 =
      SendOutcome.retried RetrySignal.exhausted ∧
    deliveryAttempts
        ⟨1, "w", "http://target", "import.completed", true, none, none, 0⟩
        (fun _ => HttpResult.response 503) =
      [SendOutcome.retried (RetrySignal.scheduled 60),
       SendOutcome.retried (RetrySignal.scheduled 120),
       SendOutcome.retried (RetrySignal.scheduled 180),
       SendOutcome.retried RetrySignal.exhausted] := by
  have h1 := webhook_retry_backoff
    ⟨1, "w", "http://target", "import.completed", true, none, none, 0⟩
    1 503 (by decide)
  have h3 := webhook_retry_backoff
    ⟨1, "w", "http://target", "import.completed", true, none, none, 0⟩
    3 503 (by decide)
  have h404 := webhook_retry_backoff
    ⟨1, "w", "http://target", "import.completed", true, none, none, 0⟩
    1 404 (by decide)
  exact ⟨(h1.1 (by norm_num)).trans (by decide),
    h404.2.2.2.1 (by norm_num) (by norm_num),
    (h3.2.1).trans (by decide),
    h1.2.2.2.2.2.2⟩

/-- **C8**: on a completed delivery attempt against an enabled webhook,
the consecutive-failure count resets to 0 on a response code < 400 and
increments by one on a code ≥ 400, a timeout or a network error; a
missing webhook and a disabled webhook leave every stored row unchanged. -/
theorem webhook_failure_count_transitions (w : Webhook) (retries : Nat)
    (result : HttpResult) (hen : w.is_enabled = true) :
    (∀ s, result = HttpResult.response s → s < 400 →
      ∃ w', (send_webhook (some w) retries result).1 = some w' ∧
        w'.failure_count = 0) ∧
    (∀ s, result = HttpResult.response s → 400 ≤ s →
      ∃ w', (send_webhook (some w) retries result).1 = some w' ∧
        w'.failure_count = w.failure_count + 1) ∧
    (result = HttpResult.timeout →
      ∃ w', (send_webhook (some w) retries result).1 = some w' ∧
        w'.failure_count = w.failure_count + 1) ∧
    (result = HttpResult.networkError →
      ∃ w', (send_webhook (some w) retries result).1 = some w' ∧
        w'.failure_count = w.failure_count + 1) ∧
    (send_webhook none retries result = (none, SendOutcome.notFound)) ∧
    (∀ w2 : Webhook, w2.is_enabled = false →
      send_webhook (some w2) retries result = (some w2, SendOutcome.skippedDisabled)) := by
  refine ⟨?_, ?_, ?_, ?_, ?_, ?_⟩
  · rintro s rfl hs
    exact ⟨⟨w.id, w.name, w.url, w.event_type, true, w.secret, some s, 0⟩,
      by simp [send_webhook, hen, Nat.not_le.mpr hs], rfl⟩
  · rintro s rfl hs
    refine ⟨⟨w.id, w.name, w.url, w.event_type, true, w.secret, some s,
      w.failure_count + 1⟩, ?_, rfl⟩
    by_cases h5 : 500 ≤ s
    · simp [send_webhook, hen, hs, h5]
    · simp [send_webhook, hen, hs, h5]
  · rintro rfl
    exact ⟨⟨w.id, w.name, w.url, w.event_type, true, w.secret,
      w.last_response_code, w.failure_count + 1⟩,
      by simp [send_webhook, hen], rfl⟩
  · rintro rfl
    exact ⟨⟨w.id, w.name, w.url, w.event_type, true, w.secret,
      w.last_response_code, w.failure_count + 1⟩,
      by simp [send_webhook, hen], rfl⟩
  · rfl
  · intro w2 hw2
    simp [send_webhook, hw2]

/-- Witness for C8: concrete transitions from failure count 5 — reset on
200, increment on 404, 503, timeout and network error; missing and
disabled webhooks untouched. -/
theorem webhook_failure_count_transitions_witness :
    (∃ w', (send_webhook
        (some ⟨1, "w", "http://t", "product.created", true, none, none, 5⟩)
        0 (HttpResult.response 200)).1 = some w' ∧ w'.failure_count = 0) ∧
    (∃ w', (send_webhook
        (some ⟨1, "w", "http://t", "product.created", true, none, none, 5⟩)
        0 (HttpResult.response 404)).1 = some w' ∧ w'.failure_count = 6) ∧
    (∃ w', (send_webhook
        (some ⟨1, "w", "http://t", "product.created", true, none, none, 5⟩)
        0 HttpResult.timeout).1 = some w' ∧ w'.failure_count = 6) ∧
    (∃ w', (send_webhook
        (some ⟨1, "w", "http://t", "product.created", true, none, none, 5⟩)
        0 HttpResult.networkError).1 = some w' ∧ w'.failure_count = 6) ∧
    send_webhook none 0 (HttpResult.response 200) = (none, SendOutcome.notFound) ∧
    send_webhook
        (some ⟨1, "w", "http://t", "product.created", false, none, none, 5⟩)
        0 (HttpResult.response 200) =
      (some ⟨1, "w", "http://t", "product.created", false, none, none, 5⟩,
        SendOutcome.skippedDisabled) := by
  have h200 := webhook_failure_count_transitions
    ⟨1, "w", "http://t", "product.created", true, none, none, 5⟩
    0 (HttpResult.response 200) (by decide)
  have h404 := webhook_failure_count_transitions
    ⟨1, "w", "http://t", "product.created", true, none, none, 5⟩
    0 (HttpResult.response 404) (by decide)
  have hto := webhook_failure_count_transitions
    ⟨1, "w", "http://t", "product.created", true, none, none, 5⟩
    0 HttpResult.timeout (by decide)
  have hne := webhook_failure_count_transitions
    ⟨1, "w", "http://t", "product.created", true, none, none, 5⟩
    0 HttpResult.networkError (by decide)
  exact ⟨h200.1 200 rfl (by norm_num),
    h404.2.1 404 rfl (by norm_num),
    hto.2.2.1 rfl, hne.2.2.2.1 rfl, h200.2.2.2.2.1,
    h200.2.2.2.2.2 _ (by decide)⟩

/-! ## The import orchestrator (`import_csv_task`)

The uploaded file is modelled as its list of physical lines. The
`csv.DictReader` stream is modelled for single-line unquoted records: the
first line is the header, completely empty lines are skipped (as the
`csv` module does), fields are split on commas and paired with header
names by position. `round(x, 2)` is modelled as exact rational rounding
(half to even, as Python rounds) of the exact ratio. -/

/-- `count_csv_rows(file_path)`: `sum(1 for _ in f) - 1` — the number of
physical lines minus one, unconditionally (an empty file counts -1). -/
def count_csv_rows (lines : List String) : Int := (lines.length : Int) - 1

/-- Split a character list at commas (the `csv` field separator, quoting
not modelled). -/
def splitCommaAux : List Char → List (List Char)
  | [] => [[]]
  | c :: cs =>
    if c = ',' then [] :: splitCommaAux cs
    else
      match splitCommaAux cs with
      | f :: rest => (c :: f) :: rest
      | [] => [[c]]

/-- A line's comma-separated fields. -/
def splitFields (line : String) : List String :=
  (splitCommaAux line.data).map List.asString

/-- `csv.DictReader` key/value pairing: header names zipped with the
record's fields (missing values leave the key absent, extra dropped). -/
def zipRow (header fields : List String) : Row := header.zip fields

/-- The records `csv.DictReader` yields: one per non-empty line after the
header line. -/
def csvRecords (lines : List String) : List Row :=
  match lines with
  | [] => []
  | header :: rest =>
    (rest.filter (fun l => l ≠ "")).map
      (fun l => zipRow (splitFields header) (splitFields l))

/-- `settings.CHUNK_SIZE` (default 5000) and
`settings.PROGRESS_UPDATE_INTERVAL` (default 1000). -/
structure Config where
  CHUNK_SIZE : Nat
  PROGRESS_UPDATE_INTERVAL : Nat
deriving DecidableEq, Repr

/-- An entry of `ImportJob.error_details`: either a sampled row error
(`{"row": ..., "errors": ..., "sku": ...}`) or the single failure message
(`{"message": ...}`). -/
inductive ErrorEntry where
  | rowError (row : Nat) (errors : List String) (sku : String)
  | message (msg : String)
deriving DecidableEq, Repr

/-- The durable `import_jobs` row (the columns the task writes). -/
structure JobRecord where
  status : String
  total_rows : Int
  processed_rows : Nat
  success_count : Nat
  error_count : Nat
  created_count : Nat
  updated_count : Nat
  error_details : Option (List ErrorEntry)
deriving DecidableEq, Repr

/-- Which `update_progress` call site produced a snapshot (bookkeeping
tag for the statements below, not data sent on the wire). -/
inductive SnapshotKind where
  | counting
  | totalKnown
  | interval
  | final
  | failure
deriving DecidableEq, Repr

/-- One Redis progress snapshot (`update_progress` payload). -/
structure Snapshot where
  kind : SnapshotKind
  status : String
  processed_rows : Nat
  total_rows : Int
  success_count : Nat
  error_count : Nat
  created_count : Nat
  updated_count : Nat
  progress_percentage : Option Rat
deriving DecidableEq, Repr

/-- Round `a / b` (for `b > 0`) to the nearest integer, ties to even —
Python's `round`. -/
def roundHalfEvenRatio (a b : Int) : Int :=
  let f := Int.fdiv a b
  let r := a - f * b
  if 2 * r < b then f
  else if b < 2 * r then f + 1
  else if f % 2 = 0 then f else f + 1

/-- `round(processed_rows / total_rows * 100, 2)` as an exact rational
with two decimal places. -/
def progress_percentage (processed : Nat) (total : Int) : Rat :=
  mkRat (roundHalfEvenRatio (10000 * processed) total) 100

/-- The `progress_percentage` field of `ImportJob.to_dict`
(`app/models/import_job.py`): guarded by `total_rows > 0`, else 0. -/
def import_job_progress_percentage (j : JobRecord) : Rat :=
  if 0 < j.total_rows then
    mkRat (roundHalfEvenRatio (10000 * j.processed_rows) j.total_rows) 100
  else mkRat 0 100

/-- The streaming state of `import_csv_task`: the local counters, the
pending batch, the durable job row and product store, the published
snapshots, and the trace (status, processed_rows, upsert calls so far) of
every status-bearing `db.commit()`. -/
structure LoopState where
  job : JobRecord
  store : Store
  processed_rows : Nat
  success_count : Nat
  error_count : Nat
  created_count : Nat
  updated_count : Nat
  error_details : List ErrorEntry
  batch : List ProductData
  snapshots : List Snapshot
  durable : List (String × Nat × Nat)
  upsertCalls : Nat
deriving Repr

/-- The body of the `for row_num, row in enumerate(reader, start=2)` loop:
validate, accumulate (errors sampled up to 100), flush the batch at
`CHUNK_SIZE`, and at every `PROGRESS_UPDATE_INTERVAL` processed rows set
the durable status to `importing`, persist counters and publish an
interval snapshot with the computed percentage. -/
def processRow (cfg : Config) (total : Int) (row_num : Nat)
    (st : LoopState) (row : Row) : LoopState :=
  let st1 :=
    match parse_csv_row row row_num with
    | ParsedRow.valid data =>
      { st with batch := st.batch ++ [data], success_count := st.success_count + 1 }
    | ParsedRow.invalid rn errs =>
      { st with
        error_count := st.error_count + 1,
        error_details :=
          if st.error_details.length < 100 then
            st.error_details ++ [ErrorEntry.rowError rn errs (row.getD "sku")]
          else st.error_details }
  let st2 := { st1 with processed_rows := st1.processed_rows + 1 }
  let st3 :=
    if cfg.CHUNK_SIZE ≤ st2.batch.length then
      let r := upsert_products st2.store st2.batch
      { st2 with
        store := r.1,
        created_count := st2.created_count + r.2.1,
        updated_count := st2.updated_count + r.2.2,
        batch := [], upsertCalls := st2.upsertCalls + 1 }
    else st2
  if st3.processed_rows % cfg.PROGRESS_UPDATE_INTERVAL = 0 then
    { st3 with
      job := { st3.job with
        status := "importing",
        processed_rows := st3.processed_rows,
        success_count := st3.success_count, error_count := st3.error_count,
        created_count := st3.created_count, updated_count := st3.updated_count },
      durable := st3.durable ++ [("importing", st3.processed_rows, st3.upsertCalls)],
      snapshots := st3.snapshots ++ [{
        kind := SnapshotKind.interval, status := "importing",
        processed_rows := st3.processed_rows, total_rows := total,
        success_count := st3.success_count, error_count := st3.error_count,
        created_count := st3.created_count, updated_count := st3.updated_count,
        progress_percentage := some (progress_percentage st3.processed_rows total) }] }
  else st3

/-- The streaming loop over the reader's records. -/
def runLoop (cfg : Config) (total : Int) :
    List Row → Nat → LoopState → LoopState
  | [], _, st => st
  | row :: rest, row_num, st =>
    runLoop cfg total rest (row_num + 1) (processRow cfg total row_num st row)

/-- The state before the streaming loop: status set to `parsing` (one
commit), `total_rows` counted and persisted (second commit), the counting
and `validating` snapshots published. The durable trace starts from the
job's stored status at upload time. -/
def importInitState (job0 : JobRecord) (lines : List String)
    (store0 : Store) : LoopState :=
  let total := count_csv_rows lines
  { job := { job0 with status := "parsing", total_rows := total },
    store := store0,
    processed_rows := 0, success_count := 0, error_count := 0,
    created_count := 0, updated_count := 0,
    error_details := [], batch := [],
    snapshots := [
      { kind := SnapshotKind.counting, status := "parsing",
        processed_rows := 0, total_rows := 0, success_count := 0,
        error_count := 0, created_count := 0, updated_count := 0,
        progress_percentage := none },
      { kind := SnapshotKind.totalKnown, status := "validating",
        processed_rows := 0, total_rows := total, success_count := 0,
        error_count := 0, created_count := 0, updated_count := 0,
        progress_percentage := none }],
    durable := [(job0.status, job0.processed_rows, 0), ("parsing", 0, 0),
      ("parsing", 0, 0)],
    upsertCalls := 0 }

/-- `if batch: upsert_products(db, batch)` after the stream ends. -/
def flushRemaining (st : LoopState) : LoopState :=
  if st.batch ≠ [] then
    let r := upsert_products st.store st.batch
    { st with
      store := r.1,
      created_count := st.created_count + r.2.1,
      updated_count := st.updated_count + r.2.2,
      batch := [], upsertCalls := st.upsertCalls + 1 }
  else st

/-- The 100%-complete snapshot published on completion. -/
def finalSnapshot (total : Int) (st : LoopState) : Snapshot :=
  { kind := SnapshotKind.final, status := "completed",
    processed_rows := st.processed_rows, total_rows := total,
    success_count := st.success_count, error_count := st.error_count,
    created_count := st.created_count, updated_count := st.updated_count,
    progress_percentage := some (mkRat 100 1) }

/-- Mark the job `completed`, persist the final counters and the sampled
error details, publish the 100%-complete snapshot. -/
def finalizeJob (total : Int) (st : LoopState) : LoopState :=
  { st with
    job := { st.job with
      status := "completed",
      processed_rows := st.processed_rows,
      success_count := st.success_count, error_count := st.error_count,
      created_count := st.created_count, updated_count := st.updated_count,
      error_details :=
        if st.error_details = [] then none else some st.error_details },
    durable := st.durable ++ [("completed", st.processed_rows, st.upsertCalls)],
    snapshots := st.snapshots ++ [finalSnapshot total st] }

/-- The whole happy path of `import_csv_task`: set status `parsing` and
publish a counting snapshot; count and persist `total_rows` and publish a
`validating` snapshot; stream all records; flush the remaining batch;
mark the job `completed` with the final counters and publish the
100%-complete snapshot. -/
def import_csv_task (cfg : Config) (job0 : JobRecord) (lines : List String)
    (store0 : Store) : LoopState :=
  finalizeJob (count_csv_rows lines)
    (flushRemaining
      (runLoop cfg (count_csv_rows lines) (csvRecords lines) 2
        (importInitState job0 lines store0)))

/-- The `except Exception` handler: mark the job `failed` with a
single-entry error detail, from whatever non-terminal state it was in. -/
def failJob (job : JobRecord) (msg : String) : JobRecord :=
  { job with status := "failed", error_details := some [ErrorEntry.message msg] }

/-- The position of a status in the lifecycle
`pending → parsing → validating → importing → {completed | failed}`. -/
def statusRank (s : String) : Nat :=
  if s = "pending" then 0
  else if s = "parsing" then 1
  else if s = "validating" then 2
  else if s = "importing" then 3
  else if s = "completed" then 4
  else if s = "failed" then 4
  else 0

example :
    (import_csv_task ⟨5000, 1000⟩ ⟨"pending", 0, 0, 0, 0, 0, 0, none⟩ [] []).job.status
      = "completed" := by decide

example :
    (import_csv_task ⟨5000, 1000⟩ ⟨"pending", 0, 0, 0, 0, 0, 0, none⟩ [] []).job.total_rows
      = -1 := by decide

example :
    (import_csv_task ⟨3, 2⟩ ⟨"pending", 0, 0, 0, 0, 0, 0, none⟩
        ["sku,name", "a,x", "b,y"] []).durable =
      [("pending", 0, 0), ("parsing", 0, 0), ("parsing", 0, 0),
       ("importing", 2, 0), ("completed", 2, 1)] := by decide

example :
    (import_csv_task ⟨3, 2⟩ ⟨"pending", 0, 0, 0, 0, 0, 0, none⟩
        ["sku,name", "a,x", "b,y"] []).snapshots.map (·.status) =
      ["parsing", "validating", "importing", "completed"] := by decide

example :
    (import_csv_task ⟨3, 2⟩ ⟨"pending", 0, 0, 0, 0, 0, 0, none⟩
        ["sku,name", "a,x", ""] []).job.processed_rows = 1 := by decide

/-! ### Loop invariants -/

theorem decide_not_eq_true (b : Bool) : decide (¬ b = true) = ! b := by
  cases b <;> rfl

theorem length_filter_add_length_filter_not {α : Type} (l : List α) (p : α → Bool) :
    (l.filter p).length + (l.filter (fun a => ! p a)).length = l.length := by
  induction l with
  | nil => rfl
  | cons a t ih =>
    by_cases h : p a = true <;> simp [List.filter, h] <;> omega

/-- Every batch row is counted exactly once: the two counts returned by
`upsert_products` sum to the batch size. -/
theorem upsert_products_sum (store : Store) (b : List ProductData) :
    (upsert_products store b).2.1 + (upsert_products store b).2.2 = b.length := by
  unfold upsert_products
  by_cases hb : b = []
  · simp [hb]
  · rw [if_neg hb]
    simp only
    have hcongr : b.filter (fun p => ¬ ((store.filter (fun q =>
          (b.map (·.sku)).contains (pyUpper q.sku))).map (·.sku)).contains p.sku) =
        b.filter (fun p => ! ((store.filter (fun q =>
          (b.map (·.sku)).contains (pyUpper q.sku))).map (·.sku)).contains p.sku) := by
      apply List.filter_congr
      intro p _
      exact decide_not_eq_true _
    rw [hcongr, Nat.add_comm]
    exact length_filter_add_length_filter_not b _

/-- One loop iteration advances `processed_rows` by one, advances
`success_count + error_count` by one, and advances
`created_count + updated_count + len(batch)` by the same amount as
`success_count`. -/
theorem processRow_counters (cfg : Config) (total : Int) (n : Nat)
    (st : LoopState) (row : Row) :
    (processRow cfg total n st row).processed_rows = st.processed_rows + 1 ∧
    (processRow cfg total n st row).success_count +
      (processRow cfg total n st row).error_count =
      st.success_count + st.error_count + 1 ∧
    (processRow cfg total n st row).created_count +
      (processRow cfg total n st row).updated_count +
      (processRow cfg total n st row).batch.length + st.success_count =
      st.created_count + st.updated_count + st.batch.length +
        (processRow cfg total n st row).success_count := by
  unfold processRow
  cases hp : parse_csv_row row n with
  | valid data =>
    dsimp only
    by_cases hflush : cfg.CHUNK_SIZE ≤ st.batch.length + 1
    · have hsum := upsert_products_sum st.store (st.batch ++ [data])
      simp only [List.length_append, List.length_singleton] at hsum
      by_cases hsnap : (st.processed_rows + 1) % cfg.PROGRESS_UPDATE_INTERVAL = 0 <;>
        simp [hflush, hsnap] <;> omega
    · by_cases hsnap : (st.processed_rows + 1) % cfg.PROGRESS_UPDATE_INTERVAL = 0 <;>
        simp [hflush, hsnap] <;> omega
  | invalid rn errs =>
    dsimp only
    by_cases hflush : cfg.CHUNK_SIZE ≤ st.batch.length
    · have hsum := upsert_products_sum st.store st.batch
      by_cases hsnap : (st.processed_rows + 1) % cfg.PROGRESS_UPDATE_INTERVAL = 0 <;>
        simp [hflush, hsnap] <;> omega
    · by_cases hsnap : (st.processed_rows + 1) % cfg.PROGRESS_UPDATE_INTERVAL = 0 <;>
        simp [hflush, hsnap] <;> omega

/-- One loop iteration publishes either nothing or exactly one interval
snapshot (status `importing`, the running total, the just-incremented
`processed_rows` — which is then divisible by the interval — and the
computed percentage) together with one matching durable status commit. -/
theorem processRow_trace (cfg : Config) (total : Int) (n : Nat)
    (st : LoopState) (row : Row) :
    ∃ snapSuf durSuf,
      (processRow cfg total n st row).snapshots = st.snapshots ++ snapSuf ∧
      (processRow cfg total n st row).durable = st.durable ++ durSuf ∧
      (∀ s ∈ snapSuf, s.kind = SnapshotKind.interval ∧ s.status = "importing" ∧
        s.total_rows = total ∧ s.processed_rows = st.processed_rows + 1 ∧
        s.processed_rows % cfg.PROGRESS_UPDATE_INTERVAL = 0 ∧
        s.progress_percentage = some (progress_percentage s.processed_rows total)) ∧
      (∀ e ∈ durSuf, e.1 = "importing" ∧ e.2.1 = st.processed_rows + 1 ∧
        e.2.1 % cfg.PROGRESS_UPDATE_INTERVAL = 0) := by
  unfold processRow
  cases hp : parse_csv_row row n with
  | valid data =>
    dsimp only
    by_cases hflush : cfg.CHUNK_SIZE ≤ st.batch.length + 1
    · by_cases hsnap : (st.processed_rows + 1) % cfg.PROGRESS_UPDATE_INTERVAL = 0
      · refine ⟨[⟨SnapshotKind.interval, "importing", st.processed_rows + 1, total,
          st.success_count + 1, st.error_count,
          st.created_count + (upsert_products st.store (st.batch ++ [data])).2.1,
          st.updated_count + (upsert_products st.store (st.batch ++ [data])).2.2,
          some (progress_percentage (st.processed_rows + 1) total)⟩],
          [("importing", st.processed_rows + 1, st.upsertCalls + 1)],
          by simp [hflush, hsnap], by simp [hflush, hsnap], ?_, ?_⟩
        · intro s hs
          rw [List.mem_singleton] at hs
          subst hs
          exact ⟨rfl, rfl, rfl, rfl, hsnap, rfl⟩
        · intro e he
          rw [List.mem_singleton] at he
          subst he
          exact ⟨rfl, rfl, hsnap⟩
      · exact ⟨[], [], by simp [hflush, hsnap], by simp [hflush, hsnap],
          by simp, by simp⟩
    · by_cases hsnap : (st.processed_rows + 1) % cfg.PROGRESS_UPDATE_INTERVAL = 0
      · refine ⟨[⟨SnapshotKind.interval, "importing", st.processed_rows + 1, total,
          st.success_count + 1, st.error_count,
          st.created_count, st.updated_count,
          some (progress_percentage (st.processed_rows + 1) total)⟩],
          [("importing", st.processed_rows + 1, st.upsertCalls)],
          by simp [hflush, hsnap], by simp [hflush, hsnap], ?_, ?_⟩
        · intro s hs
          rw [List.mem_singleton] at hs
          subst hs
          exact ⟨rfl, rfl, rfl, rfl, hsnap, rfl⟩
        · intro e he
          rw [List.mem_singleton] at he
          subst he
          exact ⟨rfl, rfl, hsnap⟩
      · exact ⟨[], [], by simp [hflush, hsnap], by simp [hflush, hsnap],
          by simp, by simp⟩
  | invalid rn errs =>
    dsimp only
    by_cases hflush : cfg.CHUNK_SIZE ≤ st.batch.length
    · by_cases hsnap : (st.processed_rows + 1) % cfg.PROGRESS_UPDATE_INTERVAL = 0
      · refine ⟨[⟨SnapshotKind.interval, "importing", st.processed_rows + 1, total,
          st.success_count, st.error_count + 1,
          st.created_count + (upsert_products st.store st.batch).2.1,
          st.updated_count + (upsert_products st.store st.batch).2.2,
          some (progress_percentage (st.processed_rows + 1) total)⟩],
          [("importing", st.processed_rows + 1, st.upsertCalls + 1)],
          by simp [hflush, hsnap], by simp [hflush, hsnap], ?_, ?_⟩
        · intro s hs
          rw [List.mem_singleton] at hs
          subst hs
          exact ⟨rfl, rfl, rfl, rfl, hsnap, rfl⟩
        · intro e he
          rw [List.mem_singleton] at he
          subst he
          exact ⟨rfl, rfl, hsnap⟩
      · exact ⟨[], [], by simp [hflush, hsnap], by simp [hflush, hsnap],
          by simp, by simp⟩
    · by_cases hsnap : (st.processed_rows + 1) % cfg.PROGRESS_UPDATE_INTERVAL = 0
      · refine ⟨[⟨SnapshotKind.interval, "importing", st.processed_rows + 1, total,
          st.success_count, st.error_count + 1,
          st.created_count, st.updated_count,
          some (progress_percentage (st.processed_rows + 1) total)⟩],
          [("importing", st.processed_rows + 1, st.upsertCalls)],
          by simp [hflush, hsnap], by simp [hflush, hsnap], ?_, ?_⟩
        · intro s hs
          rw [List.mem_singleton] at hs
          subst hs
          exact ⟨rfl, rfl, rfl, rfl, hsnap, rfl⟩
        · intro e he
          rw [List.mem_singleton] at he
          subst he
          exact ⟨rfl, rfl, hsnap⟩
      · exact ⟨[], [], by simp [hflush, hsnap], by simp [hflush, hsnap],
          by simp, by simp⟩

/-- The loop advances `processed_rows` by exactly the number of records. -/
theorem runLoop_processed (cfg : Config) (total : Int) (recs : List Row)
    (n : Nat) (st : LoopState) :
    (runLoop cfg total recs n st).processed_rows =
      st.processed_rows + recs.length := by
  induction recs generalizing n st with
  | nil => simp [runLoop]
  | cons r rest ih =>
    rw [runLoop, ih]
    have h := (processRow_counters cfg total n st r).1
    rw [h]
    simp [List.length_cons]
    omega

/-- The loop preserves the two counter invariants:
`success + error = processed` and
`created + updated + len(batch) = success`. -/
theorem runLoop_invariants (cfg : Config) (total : Int) (recs : List Row)
    (n : Nat) (st : LoopState)
    (h1 : st.success_count + st.error_count = st.processed_rows)
    (h2 : st.created_count + st.updated_count + st.batch.length = st.success_count) :
    (runLoop cfg total recs n st).success_count +
      (runLoop cfg total recs n st).error_count =
      (runLoop cfg total recs n st).processed_rows ∧
    (runLoop cfg total recs n st).created_count +
      (runLoop cfg total recs n st).updated_count +
      (runLoop cfg total recs n st).batch.length =
      (runLoop cfg total recs n st).success_count := by
  induction recs generalizing n st with
  | nil => exact ⟨by simpa [runLoop] using h1, by simpa [runLoop] using h2⟩
  | cons r rest ih =>
    rw [runLoop]
    have hc := processRow_counters cfg total n st r
    exact ih _ _ (by omega) (by omega)

/-- The loop only ever appends interval snapshots and `importing` durable
commits, whose `processed_rows` lie between 1 and the record count. -/
theorem runLoop_trace (cfg : Config) (total : Int) (recs : List Row)
    (n : Nat) (st : LoopState) :
    ∃ snapSuf durSuf,
      (runLoop cfg total recs n st).snapshots = st.snapshots ++ snapSuf ∧
      (runLoop cfg total recs n st).durable = st.durable ++ durSuf ∧
      (∀ s ∈ snapSuf, s.kind = SnapshotKind.interval ∧ s.status = "importing" ∧
        s.total_rows = total ∧ st.processed_rows + 1 ≤ s.processed_rows ∧
        s.processed_rows ≤ st.processed_rows + recs.length ∧
        s.processed_rows % cfg.PROGRESS_UPDATE_INTERVAL = 0 ∧
        s.progress_percentage = some (progress_percentage s.processed_rows total)) ∧
      (∀ e ∈ durSuf, e.1 = "importing" ∧ st.processed_rows + 1 ≤ e.2.1 ∧
        e.2.1 % cfg.PROGRESS_UPDATE_INTERVAL = 0) := by
  induction recs generalizing n st with
  | nil =>
    exact ⟨[], [], by simp [runLoop], by simp [runLoop], by simp, by simp⟩
  | cons r rest ih =>
    rw [runLoop]
    obtain ⟨A, A', hA, hA', hPA, hPA'⟩ := processRow_trace cfg total n st r
    obtain ⟨B, B', hB, hB', hPB, hPB'⟩ := ih (n + 1) (processRow cfg total n st r)
    have hproc := (processRow_counters cfg total n st r).1
    refine ⟨A ++ B, A' ++ B', by rw [hB, hA, List.append_assoc],
      by rw [hB', hA', List.append_assoc], ?_, ?_⟩
    · intro s hs
      rcases List.mem_append.mp hs with hmem | hmem
      · obtain ⟨k1, k2, k3, k4, k5, k6⟩ := hPA s hmem
        refine ⟨k1, k2, k3, by omega, by simp [List.length_cons]; omega, k5, k6⟩
      · obtain ⟨k1, k2, k3, k4, k5, k6, k7⟩ := hPB s hmem
        rw [hproc] at k4 k5
        refine ⟨k1, k2, k3, by omega, by simp [List.length_cons]; omega, k6, k7⟩
    · intro e he
      rcases List.mem_append.mp he with hmem | hmem
      · obtain ⟨k1, k2, k3⟩ := hPA' e hmem
        exact ⟨k1, by omega, k3⟩
      · obtain ⟨k1, k2, k3⟩ := hPB' e hmem
        rw [hproc] at k2
        exact ⟨k1, by omega, k3⟩

/-- The loop body never touches the persisted `total_rows`. -/
theorem processRow_job_total (cfg : Config) (total : Int) (n : Nat)
    (st : LoopState) (row : Row) :
    (processRow cfg total n st row).job.total_rows = st.job.total_rows := by
  unfold processRow
  cases hp : parse_csv_row row n <;> dsimp only <;>
    [by_cases hflush : cfg.CHUNK_SIZE ≤ st.batch.length + 1;
     by_cases hflush : cfg.CHUNK_SIZE ≤ st.batch.length] <;>
    by_cases hsnap : (st.processed_rows + 1) % cfg.PROGRESS_UPDATE_INTERVAL = 0 <;>
    simp [hflush, hsnap]

theorem runLoop_job_total (cfg : Config) (total : Int) (recs : List Row)
    (n : Nat) (st : LoopState) :
    (runLoop cfg total recs n st).job.total_rows = st.job.total_rows := by
  induction recs generalizing n st with
  | nil => rfl
  | cons r rest ih => rw [runLoop, ih, processRow_job_total]

/-- The post-stream flush leaves the job row, the row counters and the
success/error counters alone. -/
theorem flushRemaining_fields (st : LoopState) :
    (flushRemaining st).job = st.job ∧
    (flushRemaining st).processed_rows = st.processed_rows ∧
    (flushRemaining st).success_count = st.success_count ∧
    (flushRemaining st).error_count = st.error_count := by
  unfold flushRemaining
  by_cases hb : st.batch ≠ [] <;> simp [hb]

/-- After the flush, every validated row has been counted into
created/updated: `created + updated = success`. -/
theorem flushRemaining_counts (st : LoopState)
    (h2 : st.created_count + st.updated_count + st.batch.length = st.success_count) :
    (flushRemaining st).created_count + (flushRemaining st).updated_count =
      (flushRemaining st).success_count := by
  unfold flushRemaining
  by_cases hb : st.batch ≠ []
  · have hsum := upsert_products_sum st.store st.batch
    rw [if_pos hb]
    dsimp only
    omega
  · have hnil : st.batch = [] := not_not.mp hb
    rw [hnil] at h2
    rw [if_neg hb]
    simpa using h2

/-- **C1 (amended)**: every run of the orchestrator ends `completed` with
`success_count + error_count = processed_rows` and
`created_count + updated_count = success_count`; and
`processed_rows = total_rows` additionally holds whenever the file is
non-empty and every line after the header is a non-blank (single-line)
record — the reader skips blank lines while the counting pass counts
them, so the two sides can differ on degenerate files. -/
theorem completed_job_counter_invariants (cfg : Config) (job0 : JobRecord)
    (lines : List String) (store0 : Store)
    (hI : 1 ≤ cfg.PROGRESS_UPDATE_INTERVAL) :
    (import_csv_task cfg job0 lines store0).job.status = "completed" ∧
    (import_csv_task cfg job0 lines store0).job.success_count +
      (import_csv_task cfg job0 lines store0).job.error_count =
      (import_csv_task cfg job0 lines store0).job.processed_rows ∧
    (import_csv_task cfg job0 lines store0).job.created_count +
      (import_csv_task cfg job0 lines store0).job.updated_count =
      (import_csv_task cfg job0 lines store0).job.success_count ∧
    (lines ≠ [] → (∀ l ∈ lines.tail, l ≠ "") →
      ((import_csv_task cfg job0 lines store0).job.processed_rows : Int) =
        (import_csv_task cfg job0 lines store0).job.total_rows) := by
  unfold import_csv_task
  set stL := runLoop cfg (count_csv_rows lines) (csvRecords lines) 2
    (importInitState job0 lines store0) with hstL
  have hinv := runLoop_invariants cfg (count_csv_rows lines) (csvRecords lines) 2
    (importInitState job0 lines store0) (by simp [importInitState])
    (by simp [importInitState])
  have hproc := runLoop_processed cfg (count_csv_rows lines) (csvRecords lines) 2
    (importInitState job0 lines store0)
  have htot := runLoop_job_total cfg (count_csv_rows lines) (csvRecords lines) 2
    (importInitState job0 lines store0)
  rw [← hstL] at hinv hproc htot
  have hfl := flushRemaining_fields stL
  refine ⟨by simp [finalizeJob], ?_, ?_, ?_⟩
  · show (flushRemaining stL).success_count + (flushRemaining stL).error_count =
      (flushRemaining stL).processed_rows
    rw [hfl.2.1, hfl.2.2.1, hfl.2.2.2]
    exact hinv.1
  · show (flushRemaining stL).created_count + (flushRemaining stL).updated_count =
      (flushRemaining stL).success_count
    exact flushRemaining_counts stL hinv.2
  · intro hne hblank
    show ((flushRemaining stL).processed_rows : Int) =
      (flushRemaining stL).job.total_rows
    rw [hfl.2.1, hfl.1, htot]
    have hjt : (importInitState job0 lines store0).job.total_rows =
        count_csv_rows lines := by
      simp [importInitState]
    rw [hjt, hproc]
    have hini : (importInitState job0 lines store0).processed_rows = 0 := rfl
    rw [hini]
    cases lines with
    | nil => exact absurd rfl hne
    | cons h t =>
      have hfiltered : t.filter (fun l => l ≠ "") = t := by
        apply List.filter_eq_self.mpr
        intro a ha
        simpa using hblank a ha
      have hrecs : (csvRecords (h :: t)).length = t.length := by
        show ((t.filter (fun l => l ≠ "")).map
          (fun l => zipRow (splitFields h) (splitFields l))).length = t.length
        rw [hfiltered, List.length_map]
      rw [hrecs]
      unfold count_csv_rows
      simp

/-- **C1 counterexample**: two completed jobs for which
`processed_rows ≠ total_rows`. An empty upload completes with
`total_rows = -1` and `processed_rows = 0`; a file whose last data line
is blank completes with `processed_rows = 1` but `total_rows = 2` (the
counting pass counts the blank physical line, the reader skips it). -/
theorem completed_job_counter_invariants_counterexample :
    (import_csv_task ⟨5000, 1000⟩ ⟨"pending", 0, 0, 0, 0, 0, 0, none⟩
      [] []).job.status = "completed" ∧
    (import_csv_task ⟨5000, 1000⟩ ⟨"pending", 0, 0, 0, 0, 0, 0, none⟩
      [] []).job.total_rows = -1 ∧
    (import_csv_task ⟨5000, 1000⟩ ⟨"pending", 0, 0, 0, 0, 0, 0, none⟩
      [] []).job.processed_rows = 0 ∧
    ¬ (((import_csv_task ⟨5000, 1000⟩ ⟨"pending", 0, 0, 0, 0, 0, 0, none⟩
      [] []).job.processed_rows : Int) =
      (import_csv_task ⟨5000, 1000⟩ ⟨"pending", 0, 0, 0, 0, 0, 0, none⟩
      [] []).job.total_rows) ∧
    (import_csv_task ⟨5000, 1000⟩ ⟨"pending", 0, 0, 0, 0, 0, 0, none⟩
      ["sku,name", "a,x", ""] []).job.status = "completed" ∧
    (import_csv_task ⟨5000, 1000⟩ ⟨"pending", 0, 0, 0, 0, 0, 0, none⟩
      ["sku,name", "a,x", ""] []).job.processed_rows = 1 ∧
    (import_csv_task ⟨5000, 1000⟩ ⟨"pending", 0, 0, 0, 0, 0, 0, none⟩
      ["sku,name", "a,x", ""] []).job.total_rows = 2 := by
  decide

/-- Witness for C1 (amended): a 2-row well-formed file run with interval
2 — completed, `2 + 0 = 2` and `2 + 0 = 2` and `processed = total = 2`. -/
theorem completed_job_counter_invariants_witness :
    (import_csv_task ⟨2, 2⟩ ⟨"pending", 0, 0, 0, 0, 0, 0, none⟩
      ["sku,name", "a,x", "b,y"] []).job.status = "completed" ∧
    (import_csv_task ⟨2, 2⟩ ⟨"pending", 0, 0, 0, 0, 0, 0, none⟩
      ["sku,name", "a,x", "b,y"] []).job.success_count +
      (import_csv_task ⟨2, 2⟩ ⟨"pending", 0, 0, 0, 0, 0, 0, none⟩
      ["sku,name", "a,x", "b,y"] []).job.error_count =
      (import_csv_task ⟨2, 2⟩ ⟨"pending", 0, 0, 0, 0, 0, 0, none⟩
      ["sku,name", "a,x", "b,y"] []).job.processed_rows ∧
    (import_csv_task ⟨2, 2⟩ ⟨"pending", 0, 0, 0, 0, 0, 0, none⟩
      ["sku,name", "a,x", "b,y"] []).job.created_count +
      (import_csv_task ⟨2, 2⟩ ⟨"pending", 0, 0, 0, 0, 0, 0, none⟩
      ["sku,name", "a,x", "b,y"] []).job.updated_count =
      (import_csv_task ⟨2, 2⟩ ⟨"pending", 0, 0, 0, 0, 0, 0, none⟩
      ["sku,name", "a,x", "b,y"] []).job.success_count ∧
    ((import_csv_task ⟨2, 2⟩ ⟨"pending", 0, 0, 0, 0, 0, 0, none⟩
      ["sku,name", "a,x", "b,y"] []).job.processed_rows : Int) =
      (import_csv_task ⟨2, 2⟩ ⟨"pending", 0, 0, 0, 0, 0, 0, none⟩
      ["sku,name", "a,x", "b,y"] []).job.total_rows := by
  have h := completed_job_counter_invariants ⟨2, 2⟩
    ⟨"pending", 0, 0, 0, 0, 0, 0, none⟩ ["sku,name", "a,x", "b,y"] []
    (by decide)
  exact ⟨h.1, h.2.1, h.2.2.1, h.2.2.2 (by decide) (by decide)⟩

/-- **C10**: the counting pass returns the physical line count minus one,
unconditionally — a header-only file yields `total_rows = 0` and a
completely empty file yields `total_rows = -1`, which the run persists on
the (completed) job. -/
theorem count_csv_rows_line_count_minus_one :
    (∀ lines : List String, count_csv_rows lines = (lines.length : Int) - 1) ∧
    count_csv_rows ["sku,name"] = 0 ∧
    count_csv_rows [] = -1 ∧
    (import_csv_task ⟨5000, 1000⟩ ⟨"pending", 0, 0, 0, 0, 0, 0, none⟩
      [] []).job.total_rows = -1 ∧
    (import_csv_task ⟨5000, 1000⟩ ⟨"pending", 0, 0, 0, 0, 0, 0, none⟩
      [] []).job.status = "completed" :=
  ⟨fun _ => rfl, by decide, by decide, by decide, by decide⟩

/-- The flush after the stream publishes nothing and commits no status. -/
theorem flushRemaining_trace (st : LoopState) :
    (flushRemaining st).snapshots = st.snapshots ∧
    (flushRemaining st).durable = st.durable := by
  unfold flushRemaining
  by_cases hb : st.batch ≠ [] <;> simp [hb]

theorem finalizeJob_snapshots (total : Int) (st : LoopState) :
    (finalizeJob total st).snapshots = st.snapshots ++ [finalSnapshot total st] := rfl

theorem finalizeJob_durable (total : Int) (st : LoopState) :
    (finalizeJob total st).durable =
      st.durable ++ [("completed", st.processed_rows, st.upsertCalls)] := rfl

theorem importInitState_snapshots (job0 : JobRecord) (lines : List String)
    (store0 : Store) :
    (importInitState job0 lines store0).snapshots = [
      { kind := SnapshotKind.counting, status := "parsing",
        processed_rows := 0, total_rows := 0, success_count := 0,
        error_count := 0, created_count := 0, updated_count := 0,
        progress_percentage := none },
      { kind := SnapshotKind.totalKnown, status := "validating",
        processed_rows := 0, total_rows := count_csv_rows lines,
        success_count := 0, error_count := 0, created_count := 0,
        updated_count := 0, progress_percentage := none }] := rfl

/-- **C5**: every snapshot published at a progress-update interval has a
strictly positive `total_rows` — the division `processed/total` is never
a division by zero — and carries exactly the rounded percentage
`round(processed/total*100, 2)`; the job-record percentage
(`ImportJob.to_dict`) is 0 whenever `total_rows = 0`. -/
theorem interval_snapshot_percentage (cfg : Config) (job0 : JobRecord)
    (lines : List String) (store0 : Store)
    (hI : 1 ≤ cfg.PROGRESS_UPDATE_INTERVAL) :
    (∀ s ∈ (import_csv_task cfg job0 lines store0).snapshots,
      s.kind = SnapshotKind.interval →
        0 < s.total_rows ∧
        s.progress_percentage =
          some (progress_percentage s.processed_rows s.total_rows)) ∧
    (∀ j : JobRecord, j.total_rows = 0 → import_job_progress_percentage j = 0) := by
  constructor
  · intro s hs hk
    unfold import_csv_task at hs
    obtain ⟨snapSuf, durSuf, hsnap, hdur, hP, hP'⟩ := runLoop_trace cfg
      (count_csv_rows lines) (csvRecords lines) 2 (importInitState job0 lines store0)
    rw [finalizeJob_snapshots, (flushRemaining_trace _).1, hsnap,
      importInitState_snapshots] at hs
    rcases List.mem_append.mp hs with hmem | hmem
    · rcases List.mem_append.mp hmem with hmem2 | hmem2
      · rcases List.mem_cons.mp hmem2 with rfl | hmem3
        · exact absurd hk (by simp)
        · rcases List.mem_singleton.mp hmem3 with rfl
          exact absurd hk (by simp)
      · obtain ⟨k1, k2, k3, k4, k5, k6, k7⟩ := hP s hmem2
        have hini : (importInitState job0 lines store0).processed_rows = 0 := rfl
        rw [hini] at k4 k5
        cases lines with
        | nil =>
          exfalso
          have : (csvRecords ([] : List String)).length = 0 := rfl
          omega
        | cons h t =>
          have hle : (csvRecords (h :: t)).length ≤ t.length := by
            show ((t.filter (fun l => l ≠ "")).map
              (fun l => zipRow (splitFields h) (splitFields l))).length ≤ t.length
            rw [List.length_map]
            exact List.length_filter_le _ t
          have htotal : count_csv_rows (h :: t) = (t.length : Int) := by
            unfold count_csv_rows
            simp
          constructor
          · rw [k3, htotal]
            have : 1 ≤ (csvRecords (h :: t)).length := by omega
            omega
          · rw [k7, k3]
    · rcases List.mem_singleton.mp hmem with rfl
      exact absurd hk (by simp [finalSnapshot])
  · intro j hj
    unfold import_job_progress_percentage
    rw [if_neg (by omega)]
    rw [Rat.mkRat_eq_zero (by norm_num)]

/-- Witness for C5: a 3-row file with interval 2 publishes an interval
snapshot at row 2 with `total_rows = 3 > 0` and percentage
`round(2/3*100, 2)`; a job record with `total_rows = 0` reports 0%. -/
theorem interval_snapshot_percentage_witness :
    (∃ s ∈ (import_csv_task ⟨5000, 2⟩ ⟨"pending", 0, 0, 0, 0, 0, 0, none⟩
        ["sku,name", "a,x", "b,y", "c,z"] []).snapshots,
      s.kind = SnapshotKind.interval ∧ 0 < s.total_rows ∧
      s.progress_percentage =
        some (progress_percentage s.processed_rows s.total_rows)) ∧
    import_job_progress_percentage ⟨"completed", 0, 0, 0, 0, 0, 0, none⟩ = 0 := by
  have h := interval_snapshot_percentage ⟨5000, 2⟩
    ⟨"pending", 0, 0, 0, 0, 0, 0, none⟩ ["sku,name", "a,x", "b,y", "c,z"] []
    (by decide)
  have hmem : (⟨SnapshotKind.interval, "importing", 2, 3, 2, 0, 0, 0,
      some (progress_percentage 2 3)⟩ : Snapshot) ∈
      (import_csv_task ⟨5000, 2⟩ ⟨"pending", 0, 0, 0, 0, 0, 0, none⟩
        ["sku,name", "a,x", "b,y", "c,z"] []).snapshots := by decide
  exact ⟨⟨_, hmem, rfl, (h.1 _ hmem rfl).1, (h.1 _ hmem rfl).2⟩,
    h.2 _ rfl⟩

/-! ### Status lifecycle (C6) -/

theorem statusRank_le_four (s : String) : statusRank s ≤ 4 := by
  unfold statusRank
  split_ifs <;> norm_num

/-- **C6 (amended)**: both the durable status trace and the published
snapshot status trace of a run only ever move forward through the
lifecycle ranks (never backward); the durable transition to `importing`
happens at a progress-update interval (`processed_rows` divisible by the
interval), which is where the code sets it — not at the first chunk
flush; and the failure handler sends any non-terminal state forward to
`failed`. -/
theorem import_status_strictly_forward (cfg : Config) (job0 : JobRecord)
    (lines : List String) (store0 : Store)
    (hp : job0.status = "pending") (hI : 1 ≤ cfg.PROGRESS_UPDATE_INTERVAL) :
    ((import_csv_task cfg job0 lines store0).durable.map (·.1)).Pairwise
      (fun a b => statusRank a ≤ statusRank b) ∧
    ((import_csv_task cfg job0 lines store0).snapshots.map (·.status)).Pairwise
      (fun a b => statusRank a ≤ statusRank b) ∧
    (∀ e ∈ (import_csv_task cfg job0 lines store0).durable,
      e.1 = "importing" →
        1 ≤ e.2.1 ∧ e.2.1 % cfg.PROGRESS_UPDATE_INTERVAL = 0) ∧
    (∀ j : JobRecord, ∀ msg : String,
      j.status ≠ "completed" → j.status ≠ "failed" →
      (failJob j msg).status = "failed" ∧
      statusRank j.status ≤ statusRank (failJob j msg).status) := by
  obtain ⟨snapSuf, durSuf, hsnap, hdur, hPs, hPd⟩ := runLoop_trace cfg
    (count_csv_rows lines) (csvRecords lines) 2 (importInitState job0 lines store0)
  have hdurable : (import_csv_task cfg job0 lines store0).durable =
      ([(job0.status, job0.processed_rows, 0), ("parsing", 0, 0), ("parsing", 0, 0)]
        ++ durSuf) ++
      [("completed",
        (flushRemaining (runLoop cfg (count_csv_rows lines) (csvRecords lines) 2
          (importInitState job0 lines store0))).processed_rows,
        (flushRemaining (runLoop cfg (count_csv_rows lines) (csvRecords lines) 2
          (importInitState job0 lines store0))).upsertCalls)] := by
    unfold import_csv_task
    rw [finalizeJob_durable, (flushRemaining_trace _).2, hdur]
    rfl
  have hsnapshots : (import_csv_task cfg job0 lines store0).snapshots =
      ((importInitState job0 lines store0).snapshots ++ snapSuf) ++
      [finalSnapshot (count_csv_rows lines)
        (flushRemaining (runLoop cfg (count_csv_rows lines) (csvRecords lines) 2
          (importInitState job0 lines store0)))] := by
    unfold import_csv_task
    rw [finalizeJob_snapshots, (flushRemaining_trace _).1, hsnap]
  refine ⟨?_, ?_, ?_, ?_⟩
  · rw [hdurable, List.map_append, List.map_append]
    apply List.pairwise_append.mpr
    refine ⟨?_, by simp, ?_⟩
    · apply List.pairwise_append.mpr
      refine ⟨?_, ?_, ?_⟩
      · simp only [List.map_cons, List.map_nil, hp]
        decide
      · apply List.pairwise_of_forall_mem_list
        intro a ha b hb
        obtain ⟨ea, hea, rfl⟩ := List.mem_map.mp ha
        obtain ⟨eb, heb, rfl⟩ := List.mem_map.mp hb
        rw [(hPd ea hea).1, (hPd eb heb).1]
      · intro a ha b hb
        obtain ⟨eb, heb, rfl⟩ := List.mem_map.mp hb
        rw [(hPd eb heb).1]
        simp only [List.map_cons, List.map_nil] at ha
        rw [hp] at ha
        rcases List.mem_cons.mp ha with rfl | ha2
        · decide
        rcases List.mem_cons.mp ha2 with rfl | ha3
        · decide
        rcases List.mem_cons.mp ha3 with rfl | ha4
        · decide
        · exact absurd ha4 (List.not_mem_nil a)
    · intro a _ b hb
      rw [List.mem_map] at hb
      obtain ⟨eb, heb, rfl⟩ := hb
      rw [List.mem_singleton.mp heb]
      show statusRank a ≤ statusRank "completed"
      have h4 : statusRank "completed" = 4 := by decide
      rw [h4]
      exact statusRank_le_four a
  · rw [hsnapshots, List.map_append, List.map_append]
    apply List.pairwise_append.mpr
    refine ⟨?_, by simp, ?_⟩
    · apply List.pairwise_append.mpr
      refine ⟨?_, ?_, ?_⟩
      · rw [importInitState_snapshots]
        simp only [List.map_cons, List.map_nil]
        decide
      · apply List.pairwise_of_forall_mem_list
        intro a ha b hb
        obtain ⟨ea, hea, rfl⟩ := List.mem_map.mp ha
        obtain ⟨eb, heb, rfl⟩ := List.mem_map.mp hb
        rw [(hPs ea hea).2.1, (hPs eb heb).2.1]
      · intro a ha b hb
        obtain ⟨eb, heb, rfl⟩ := List.mem_map.mp hb
        rw [(hPs eb heb).2.1]
        rw [importInitState_snapshots] at ha
        simp only [List.map_cons, List.map_nil] at ha
        rcases List.mem_cons.mp ha with rfl | ha2
        · decide
        rcases List.mem_cons.mp ha2 with rfl | ha3
        · decide
        · exact absurd ha3 (List.not_mem_nil a)
    · intro a _ b hb
      rw [List.mem_map] at hb
      obtain ⟨eb, heb, rfl⟩ := hb
      rw [List.mem_singleton.mp heb]
      show statusRank a ≤ statusRank "completed"
      have h4 : statusRank "completed" = 4 := by decide
      rw [h4]
      exact statusRank_le_four a
  · intro e he hei
    rw [hdurable] at he
    rcases List.mem_append.mp he with hmem | hmem
    · rcases List.mem_append.mp hmem with hmem2 | hmem2
      · rcases List.mem_cons.mp hmem2 with rfl | hmem3
        · rw [hp] at hei
          simp at hei
        · rcases List.mem_cons.mp hmem3 with rfl | hmem4
          · simp at hei
          · rcases List.mem_singleton.mp hmem4 with rfl
            simp at hei
      · obtain ⟨_, k2, k3⟩ := hPd e hmem2
        have hini : (importInitState job0 lines store0).processed_rows = 0 := rfl
        rw [hini] at k2
        exact ⟨by omega, k3⟩
    · rcases List.mem_singleton.mp hmem with rfl
      simp at hei
  · intro j msg h1 h2
    refine ⟨rfl, ?_⟩
    show statusRank j.status ≤ statusRank "failed"
    have h4 : statusRank "failed" = 4 := by decide
    rw [h4]
    exact statusRank_le_four j.status

/-- **C6 counterexample**: with chunk size 3 and interval 2, a 2-row file
commits status `importing` at row 2 while zero chunk flushes have
happened (the only upsert of the run is the post-stream flush); the full
durable trace shows the `importing` commit carrying `upsertCalls = 0`.
The transition to `importing` is driven by the progress-update interval,
not by the first chunk flush. -/
theorem import_status_importing_before_first_flush_counterexample :
    ("importing", 2, 0) ∈ (import_csv_task ⟨3, 2⟩
      ⟨"pending", 0, 0, 0, 0, 0, 0, none⟩ ["sku,name", "a,x", "b,y"] []).durable ∧
    (import_csv_task ⟨3, 2⟩ ⟨"pending", 0, 0, 0, 0, 0, 0, none⟩
      ["sku,name", "a,x", "b,y"] []).upsertCalls = 1 ∧
    (import_csv_task ⟨3, 2⟩ ⟨"pending", 0, 0, 0, 0, 0, 0, none⟩
      ["sku,name", "a,x", "b,y"] []).durable =
      [("pending", 0, 0), ("parsing", 0, 0), ("parsing", 0, 0),
       ("importing", 2, 0), ("completed", 2, 1)] := by
  decide

/-- Witness for C6 (amended): the theorem applied to a concrete 2-row
run, plus the failure handler applied to a concrete `importing` job. -/
theorem import_status_strictly_forward_witness :
    ((import_csv_task ⟨3, 2⟩ ⟨"pending", 0, 0, 0, 0, 0, 0, none⟩
      ["sku,name", "a,x", "b,y"] []).durable.map (·.1)).Pairwise
      (fun a b => statusRank a ≤ statusRank b) ∧
    ((import_csv_task ⟨3, 2⟩ ⟨"pending", 0, 0, 0, 0, 0, 0, none⟩
      ["sku,name", "a,x", "b,y"] []).snapshots.map (·.status)).Pairwise
      (fun a b => statusRank a ≤ statusRank b) ∧
    (failJob ⟨"importing", 2, 2, 2, 0, 0, 0, none⟩ "boom").status = "failed" := by
  have h := import_status_strictly_forward ⟨3, 2⟩
    ⟨"pending", 0, 0, 0, 0, 0, 0, none⟩ ["sku,name", "a,x", "b,y"] []
    (by decide) (by decide)
  exact ⟨h.1, h.2.1,
    (h.2.2.2 ⟨"importing", 2, 2, 2, 0, 0, 0, none⟩ "boom"
      (by decide) (by decide)).1⟩

/-! ## HMAC-SHA256 signatures (`generate_signature`)

`hmac.new(secret.encode("utf-8"), payload.encode("utf-8"),
hashlib.sha256).hexdigest()` — SHA-256 (FIPS 180-4) and HMAC (RFC 2104)
implemented over `Nat` with explicit reduction mod 2³² where the machine
words wrap, and UTF-8 encoding of the strings. The implementation is
checked below against the standard test vectors (the SHA-256 `"abc"`
vector and RFC 4231 test case 2). -/

def w32 (n : Nat) : Nat := n % 4294967296

def rotr32 (x n : Nat) : Nat := w32 ((x >>> n) ||| (x <<< (32 - n)))

def smallSigma0 (x : Nat) : Nat := (rotr32 x 7) ^^^ (rotr32 x 18) ^^^ (x >>> 3)

def smallSigma1 (x : Nat) : Nat := (rotr32 x 17) ^^^ (rotr32 x 19) ^^^ (x >>> 10)

def bigSigma0 (x : Nat) : Nat := (rotr32 x 2) ^^^ (rotr32 x 13) ^^^ (rotr32 x 22)

def bigSigma1 (x : Nat) : Nat := (rotr32 x 6) ^^^ (rotr32 x 11) ^^^ (rotr32 x 25)

/-- The 64 SHA-256 round constants. -/
def sha256K : List Nat :=
  [1116352408, 1899447441, 3049323471, 3921009573, 961987163,
   1508970993, 2453635748, 2870763221, 3624381080, 310598401,
   607225278, 1426881987, 1925078388, 2162078206, 2614888103,
   3248222580, 3835390401, 4022224774, 264347078, 604807628,
   770255983, 1249150122, 1555081692, 1996064986, 2554220882,
   2821834349, 2952996808, 3210313671, 3336571891, 3584528711,
   113926993, 338241895, 666307205, 773529912, 1294757372,
   1396182291, 1695183700, 1986661051, 2177026350, 2456956037,
   2730485921, 2820302411, 3259730800, 3345764771, 3516065817,
   3600352804, 4094571909, 275423344, 430227734, 506948616,
   659060556, 883997877, 958139571, 1322822218, 1537002063,
   1747873779, 1955562222, 2024104815, 2227730452, 2361852424,
   2428436474, 2756734187, 3204031479, 3329325298]

/-- The SHA-256 initial hash value. -/
def sha256H0 : List Nat :=
  [1779033703, 3144134277, 1013904242, 2773480762,
   1359893119, 2600822924, 528734635, 1541459225]

/-- The `count` big-endian bytes of `n`. -/
def bigEndianBytes (count n : Nat) : List Nat :=
  ((List.range count).reverse).map (fun i => (n >>> (8 * i)) % 256)

/-- SHA-256 padding: `0x80`, zeros to 56 mod 64, the bit length on 8
big-endian bytes. -/
def padMessage (msg : List Nat) : List Nat :=
  let L := msg.length
  let r := (L + 1) % 64
  let k := (120 - r) % 64
  msg ++ [0x80] ++ List.replicate k 0 ++ bigEndianBytes 8 (8 * L)

def toBlocksAux : Nat → List Nat → List (List Nat)
  | 0, _ => []
  | _, [] => []
  | fuel + 1, c :: rest =>
    (c :: rest).take 64 :: toBlocksAux fuel ((c :: rest).drop 64)

/-- Split a byte list into 64-byte blocks. -/
def toBlocks (l : List Nat) : List (List Nat) := toBlocksAux l.length l

/-- A 64-byte block as 16 big-endian 32-bit words. -/
def toWords (block : List Nat) : List Nat :=
  (List.range 16).map (fun i =>
    ((block.getD (4 * i) 0) <<< 24) + ((block.getD (4 * i + 1) 0) <<< 16) +
    ((block.getD (4 * i + 2) 0) <<< 8) + block.getD (4 * i + 3) 0)

/-- Extend 16 message-schedule words to 64. -/
def buildW (words16 : List Nat) : List Nat :=
  (List.range 48).foldl (fun w _ =>
    let t := w.length
    w ++ [w32 (smallSigma1 (w.getD (t - 2) 0) + w.getD (t - 7) 0 +
      smallSigma0 (w.getD (t - 15) 0) + w.getD (t - 16) 0)]) words16

/-- One SHA-256 compression round on the eight-word working state. -/
def sha256Round (w : List Nat) (st : List Nat) (t : Nat) : List Nat :=
  match st with
  | [a, b, c, d, e, f, g, h] =>
    let ch := (e &&& f) ^^^ ((e ^^^ 4294967295) &&& g)
    let maj := (a &&& b) ^^^ (a &&& c) ^^^ (b &&& c)
    let T1 := w32 (h + bigSigma1 e + ch + w.getD t 0 + sha256K.getD t 0)
    let T2 := w32 (bigSigma0 a + maj)
    [w32 (T1 + T2), a, b, c, w32 (d + T1), e, f, g]
  | other => other

/-- Compress one 64-byte block into the running hash. -/
def compressBlock (h : List Nat) (block : List Nat) : List Nat :=
  let w := buildW (toWords block)
  let final := (List.range 64).foldl (sha256Round w) h
  List.zipWith (fun x y => w32 (x + y)) h final

/-- SHA-256 of a byte list, as 32 bytes. -/
def sha256 (msg : List Nat) : List Nat :=
  let hFinal := (toBlocks (padMessage msg)).foldl compressBlock sha256H0
  (hFinal.map (bigEndianBytes 4)).flatten

/-- HMAC-SHA256 (RFC 2104) with a 64-byte block size. -/
def hmacSha256 (key msg : List Nat) : List Nat :=
  let k0 := if 64 < key.length then sha256 key else key
  let k := k0 ++ List.replicate (64 - k0.length) 0
  let ipad := k.map (fun b => b ^^^ 0x36)
  let opad := k.map (fun b => b ^^^ 0x5c)
  sha256 (opad ++ sha256 (ipad ++ msg))

def hexChar (n : Nat) : Char :=
  if n < 10 then Char.ofNat (48 + n) else Char.ofNat (87 + n)

/-- Lowercase hex string of a byte list (`hexdigest()`). -/
def hexDigest (bytes : List Nat) : String :=
  ⟨(bytes.map (fun b => [hexChar (b / 16), hexChar (b % 16)])).flatten⟩

/-- UTF-8 encoding of one code point. -/
def utf8Bytes (c : Char) : List Nat :=
  let n := c.toNat
  if n < 128 then [n]
  else if n < 2048 then [192 + n / 64, 128 + n % 64]
  else if n < 65536 then [224 + n / 4096, 128 + (n / 64) % 64, 128 + n % 64]
  else [240 + n / 262144, 128 + (n / 4096) % 64, 128 + (n / 64) % 64, 128 + n % 64]

/-- `s.encode("utf-8")`. -/
def strBytes (s : String) : List Nat := (s.data.map utf8Bytes).flatten

/-- `generate_signature(payload, secret)` from
`app/tasks/webhook_sender.py`: HMAC-SHA256 of the payload keyed by the
secret, both UTF-8 encoded, as a lowercase hex digest. -/
def generate_signature (payload secret : String) : String :=
  hexDigest (hmacSha256 (strBytes secret) (strBytes payload))

/-- The request headers `send_webhook` builds: content type, event and
timestamp always; the signature header exactly when a secret is
configured (Python truthiness: `None` and `""` both count as no secret). -/
def webhookHeaders (event_type timestamp payload_json : String)
    (secret : Option String) : List (String × String) :=
  let headers := [("Content-Type", "application/json"),
    ("X-Webhook-Event", event_type), ("X-Webhook-Timestamp", timestamp)]
  match secret with
  | none => headers
  | some s =>
    if s = "" then headers
    else headers ++
      [("X-Webhook-Signature", "sha256=" ++ generate_signature payload_json s)]

set_option maxRecDepth 12000 in
example : hexDigest (sha256 (strBytes "abc")) =
    "ba7816bf8f01cfea414140de5dae2223b00361a396177a9cb410ff61f20015ad" := by
  decide

set_option maxRecDepth 100000 in
/-- **C7**: a delivery with no configured secret (or an empty one) carries
no `X-Webhook-Signature` header; with a secret the header is exactly
`sha256=` followed by the hex HMAC-SHA256 of the serialized payload bytes
keyed by the secret — a deterministic function of payload and secret,
whose implementation here reproduces RFC 4231 test case 2 exactly. -/
theorem webhook_signature_header (event ts payload : String)
    (secret : Option String) :
    ((secret = none ∨ secret = some "") →
      (webhookHeaders event ts payload secret).lookup "X-Webhook-Signature" = none) ∧
    (∀ s, secret = some s → s ≠ "" →
      (webhookHeaders event ts payload secret).lookup "X-Webhook-Signature" =
        some ("sha256=" ++ generate_signature payload s)) ∧
    (∀ s, generate_signature payload s =
      hexDigest (hmacSha256 (strBytes s) (strBytes payload))) ∧
    hexDigest (hmacSha256 (strBytes "Jefe")
        (strBytes "what do ya want for nothing?")) =
      "5bdcc146bf60754e6a042426089575c75a003f089d2739839dec58b964ec3843" := by
  refine ⟨?_, ?_, fun s => rfl, by decide⟩
  · rintro (rfl | rfl) <;> rfl
  · rintro s rfl hne
    unfold webhookHeaders
    dsimp only
    rw [if_neg hne]
    rfl

/-- Witness for C7: the theorem applied with no secret and with secret
`"x"` for payload `"y"` (the spec's own example). -/
theorem webhook_signature_header_witness :
    (webhookHeaders "product.created" "t0" "y" none).lookup
      "X-Webhook-Signature" = none ∧
    (webhookHeaders "product.created" "t0" "y" (some "")).lookup
      "X-Webhook-Signature" = none ∧
    (webhookHeaders "product.created" "t0" "y" (some "x")).lookup
      "X-Webhook-Signature" = some ("sha256=" ++ generate_signature "y" "x") := by
  have h1 := webhook_signature_header "product.created" "t0" "y" none
  have h2 := webhook_signature_header "product.created" "t0" "y" (some "")
  have h3 := webhook_signature_header "product.created" "t0" "y" (some "x")
  exact ⟨h1.1 (Or.inl rfl), h2.1 (Or.inr rfl),
    h3.2.1 "x" rfl (by decide)⟩

/-! ## Product write paths and SKU canonicalization (`app/api/products.py`)

`ProductCreate`'s validator normalizes the SKU (`strip().upper()`) and
`create_product` uppercases again before insert, after a case-insensitive
duplicate check; `ProductUpdate` has no `sku` field, so the update path
never writes a SKU; the import pipeline stores validator-produced rows
whose SKUs are uppercased. -/

/-- Python `str.lower()` (character-wise). -/
def pyLower (s : String) : String := ⟨s.data.map Char.toLower⟩

theorem char_toNat_ofNat (n : Nat) (h : n.isValidChar) :
    (Char.ofNat n).toNat = n := by
  rw [Char.ofNat, dif_pos h, Char.ofNatAux]
  show (UInt32.ofNat' n _).toNat = n
  rw [UInt32.ofNat']
  simp [UInt32.toNat]

theorem toUpper_toUpper (c : Char) : c.toUpper.toUpper = c.toUpper := by
  unfold Char.toUpper
  dsimp only
  by_cases h : Char.toNat c ≥ 97 ∧ Char.toNat c ≤ 122
  · rw [if_pos h]
    have hv : (Char.toNat c - 32).isValidChar := Or.inl (by omega)
    have ht := char_toNat_ofNat (Char.toNat c - 32) hv
    have hcon : ¬ ((Char.ofNat (Char.toNat c - 32)).toNat ≥ 97 ∧
        (Char.ofNat (Char.toNat c - 32)).toNat ≤ 122) := by
      rw [ht]
      omega
    rw [if_neg hcon]
  · rw [if_neg h, if_neg h]

theorem toLower_toUpper (c : Char) : c.toUpper.toLower = c.toLower := by
  unfold Char.toUpper Char.toLower
  dsimp only
  by_cases h : Char.toNat c ≥ 97 ∧ Char.toNat c ≤ 122
  · rw [if_pos h]
    have hv : (Char.toNat c - 32).isValidChar := Or.inl (by omega)
    have ht := char_toNat_ofNat (Char.toNat c - 32) hv
    have hin : (Char.ofNat (Char.toNat c - 32)).toNat ≥ 65 ∧
        (Char.ofNat (Char.toNat c - 32)).toNat ≤ 90 := by
      rw [ht]
      omega
    rw [if_pos hin, ht]
    have harith : Char.toNat c - 32 + 32 = Char.toNat c := by omega
    rw [harith, if_neg (by omega), Char.ofNat_toNat]
  · rw [if_neg h]

theorem pyUpper_idem (s : String) : pyUpper (pyUpper s) = pyUpper s := by
  show (⟨(s.data.map Char.toUpper).map Char.toUpper⟩ : String) =
    ⟨s.data.map Char.toUpper⟩
  apply congrArg
  rw [List.map_map]
  exact List.map_congr_left fun c _ => toUpper_toUpper c

theorem pyLower_pyUpper (s : String) : pyLower (pyUpper s) = pyLower s := by
  show (⟨(s.data.map Char.toUpper).map Char.toLower⟩ : String) =
    ⟨s.data.map Char.toLower⟩
  apply congrArg
  rw [List.map_map]
  exact List.map_congr_left fun c _ => toLower_toUpper c

/-- The fields `ProductUpdate` may carry — there is no `sku` field. -/
structure ProductUpdateData where
  name : Option String
  description : Option (Option String)
  price : Option (Option Rat)
  quantity : Option Int
  is_active : Option Bool
deriving DecidableEq, Repr

/-- `setattr(product, field, value)` for each provided field
(`model_dump(exclude_unset=True)`): the SKU is never among them. -/
def applyUpdate (p : StoredProduct) (u : ProductUpdateData) : StoredProduct :=
  { p with
    name := u.name.getD p.name,
    description := u.description.getD p.description,
    price := u.price.getD p.price,
    quantity := u.quantity.getD p.quantity,
    is_active := u.is_active.getD p.is_active }

/-- `create_product`: the schema validator normalizes the submitted SKU
(`strip().upper()`); reject (400, store unchanged) when a row with the
same SKU exists case-insensitively; otherwise insert with the SKU
uppercased again. Returns the store and whether a row was created. -/
def create_product (store : Store) (sku name : String)
    (description : Option String) (price : Option Rat) (quantity : Int)
    (is_active : Bool) : Store × Bool :=
  let vsku := pyUpper (pyStrip sku)
  if store.any (fun p => pyLower p.sku = pyLower vsku) then (store, false)
  else
    (store ++ [⟨pyUpper vsku, name, description, price, quantity, is_active⟩],
      true)

/-- `update_product`, the row addressed by position (id lookup). -/
def update_product : Store → Nat → ProductUpdateData → Store
  | [], _, _ => []
  | p :: rest, 0, u => applyUpdate p u :: rest
  | p :: rest, i + 1, u => p :: update_product rest i u

/-- `delete_product`, the row addressed by position (id lookup). -/
def delete_product : Store → Nat → Store
  | [], _ => []
  | _ :: rest, 0 => rest
  | p :: rest, i + 1 => p :: delete_product rest i

/-- The store states reachable through the repository's product write
paths: an empty table, API create, API update, API delete, delete-all,
and the import pipeline's bulk upsert fed with validator-produced
records. -/
inductive ReachableStore : Store → Prop where
  | empty : ReachableStore []
  | create (s : Store) (sku name : String) (d : Option String)
      (pr : Option Rat) (q : Int) (a : Bool) : ReachableStore s →
      ReachableStore (create_product s sku name d pr q a).1
  | update (s : Store) (i : Nat) (u : ProductUpdateData) : ReachableStore s →
      ReachableStore (update_product s i u)
  | delete (s : Store) (i : Nat) : ReachableStore s →
      ReachableStore (delete_product s i)
  | deleteAll (s : Store) : ReachableStore s → ReachableStore []
  | importBatch (s : Store) (b : List ProductData) : ReachableStore s →
      (∀ d ∈ b, ∃ row n, parse_csv_row row n = ParsedRow.valid d) →
      ReachableStore (upsert_products s b).1

/-- Updating by position never changes the sku column. -/
theorem update_product_map_sku (s : Store) (i : Nat) (u : ProductUpdateData) :
    (update_product s i u).map (·.sku) = s.map (·.sku) := by
  induction s generalizing i with
  | nil => rfl
  | cons p rest ih =>
    cases i with
    | zero => rfl
    | succ j =>
      show p.sku :: (update_product rest j u).map (·.sku) = p.sku :: rest.map (·.sku)
      rw [ih]

theorem delete_product_sublist (s : Store) (i : Nat) :
    (delete_product s i).Sublist s := by
  induction s generalizing i with
  | nil => exact List.Sublist.refl []
  | cons p rest ih =>
    cases i with
    | zero => exact List.sublist_cons_self p rest
    | succ j => exact (ih j).cons₂ p

/-- A record returned `Valid` by the validator carries an uppercase SKU. -/
theorem parse_valid_sku_upper (row : Row) (n : Nat) (d : ProductData)
    (h : parse_csv_row row n = ParsedRow.valid d) : pyUpper d.sku = d.sku := by
  by_cases he : rowErrors row = []
  · rw [parse_csv_row_of_no_errors row n he] at h
    obtain rfl := ParsedRow.valid.inj h
    exact pyUpper_idem (skuField row)
  · rw [parse_csv_row_of_errors row n he] at h
    exact ParsedRow.noConfusion h

theorem upsert_products_fst (s : Store) (b : List ProductData) :
    (upsert_products s b).1 = applyBatch s b := by
  unfold upsert_products
  by_cases hb : b = []
  · rw [if_pos hb, hb]
    rfl
  · rw [if_neg hb]

/-- **C9**: in every reachable store state, every stored product SKU is
uppercase (a fixed point of `upper()`), the sku column is unique, and
uniqueness is case-insensitive: two stored rows whose SKUs agree up to
case carry the same SKU. Every write path canonicalizes: the create
schema and endpoint uppercase, the update schema has no `sku` field, and
the import upsert stores validator-uppercased SKUs. -/
theorem store_sku_canonical_uppercase (s : Store) (h : ReachableStore s) :
    (∀ p ∈ s, pyUpper p.sku = p.sku) ∧
    (s.map (·.sku)).Nodup ∧
    (∀ p ∈ s, ∀ q ∈ s, pyUpper p.sku = pyUpper q.sku → p.sku = q.sku) := by
  have main : (∀ p ∈ s, pyUpper p.sku = p.sku) ∧ (s.map (·.sku)).Nodup := by
    induction h with
    | empty => exact ⟨by simp, by simp⟩
    | create s sku name d pr q a hr ih =>
      unfold create_product
      by_cases hdup : s.any (fun p => pyLower p.sku = pyLower (pyUpper (pyStrip sku)))
      · dsimp only
        rw [if_pos hdup]
        exact ih
      · dsimp only
        rw [if_neg hdup]
        constructor
        · intro p hp
          rcases List.mem_append.mp hp with hmem | hmem
          · exact ih.1 p hmem
          · rw [List.mem_singleton.mp hmem]
            exact pyUpper_idem (pyUpper (pyStrip sku))
        · rw [List.map_append]
          rw [List.nodup_append]
          refine ⟨ih.2, List.nodup_singleton _, ?_⟩
          intro x hx
          obtain ⟨p, hp, hps⟩ := List.mem_map.mp hx
          rw [List.map_cons, List.map_nil]
          intro hmem
          rcases List.mem_singleton.mp hmem with rfl
          apply hdup
          rw [List.any_eq_true]
          refine ⟨p, hp, ?_⟩
          rw [decide_eq_true_eq, hps, pyLower_pyUpper]
    | update s i u hr ih =>
      refine ⟨?_, by rw [update_product_map_sku]; exact ih.2⟩
      intro p hp
      have : p.sku ∈ (update_product s i u).map (·.sku) := List.mem_map_of_mem _ hp
      rw [update_product_map_sku] at this
      obtain ⟨q, hq, hqs⟩ := List.mem_map.mp this
      rw [← hqs]
      exact ih.1 q hq
    | delete s i hr ih =>
      refine ⟨?_, ?_⟩
      · intro p hp
        exact ih.1 p ((delete_product_sublist s i).subset hp)
      · exact ih.2.sublist ((delete_product_sublist s i).map (·.sku))
    | deleteAll s hr ih => exact ⟨by simp, by simp⟩
    | importBatch s b hr hb ih =>
      rw [upsert_products_fst]
      have hbU : ∀ p ∈ b, pyUpper p.sku = p.sku := by
        intro p hp
        obtain ⟨row, n, hv⟩ := hb p hp
        exact parse_valid_sku_upper row n p hv
      exact ⟨applyBatch_upper s b ih.1 hbU, applyBatch_nodup s b ih.2⟩
  refine ⟨main.1, main.2, ?_⟩
  intro p hp q hq hpq
  exact (main.1 p hp).symm.trans (hpq.trans (main.1 q hq))

/-- Witness for C9: the store reached by creating product `" ab-1 "`
(stored as `AB-1`) has unique skus, and its row's SKU is a fixed point of
uppercasing. -/
theorem store_sku_canonical_uppercase_witness :
    ((create_product ([] : Store) " ab-1 " "N" none none 0 true).1.map
      (·.sku)).Nodup ∧
    (∃ p ∈ (create_product ([] : Store) " ab-1 " "N" none none 0 true).1,
      pyUpper p.sku = p.sku ∧ p.sku = "AB-1") := by
  have hr : ReachableStore (create_product ([] : Store) " ab-1 " "N"
      none none 0 true).1 :=
    ReachableStore.create [] " ab-1 " "N" none none 0 true ReachableStore.empty
  have h := store_sku_canonical_uppercase _ hr
  have hmem : (⟨"AB-1", "N", none, none, 0, true⟩ : StoredProduct) ∈
      (create_product ([] : Store) " ab-1 " "N" none none 0 true).1 := by
    decide
  exact ⟨h.2.1, _, hmem, h.1 _ hmem, rfl⟩

end ProductImporter
